import Mathlib

/-!
Verification development for the `allin` poker chip-tracking engine.

The definitions below are a shallow embedding of `src/poker/engine.ts` and
`src/poker/handEval.ts`.  Chip quantities are modelled as `Nat` (the
TypeScript code keeps every stack / bet / pot non-negative: every
subtraction in the source is guarded by a `Math.max(0, …)` or
`Math.min(…, stack)` clamp).  Raw numeric action payloads that the source
clamps with `clampInt` are modelled as `Int` and clamped exactly as the
source does.  Seats are array indices, modelled as `Nat`; the source's
defensive `s >= 0` filters are retained in form where they also carry an
upper bound.  JavaScript `Map` accumulation (`map.set(k, (map.get(k) ?? 0) + v)`)
is modelled by a list of credit events: the final content of the map at a
key is exactly the sum of the credits recorded for that key.
-/

set_option maxHeartbeats 1000000

namespace Allin

/-- `Street` from src/poker/engine.ts. -/
inductive Street where
  | preflop
  | flop
  | turn
  | river
deriving DecidableEq, Repr

/-- `PlayerStatus` from src/poker/engine.ts. -/
inductive PlayerStatus where
  | active
  | folded
  | allin
  | out
deriving DecidableEq, Repr

/-- `Player` from src/poker/engine.ts. -/
structure Player where
  seat : Nat
  name : String
  stack : Nat
  streetBet : Nat
  totalCommitted : Nat
  status : PlayerStatus
  acted : Bool
  holeCardsText : String
deriving DecidableEq, Repr

/-- `GameConfig` from src/poker/engine.ts. -/
structure GameConfig where
  smallBlind : Nat
  bigBlind : Nat
  ante : Nat
deriving DecidableEq, Repr

/-- `Phase` from src/poker/engine.ts. -/
inductive Phase where
  | setup
  | hand
  | showdown
deriving DecidableEq, Repr

/-- `SidePot` from src/poker/engine.ts. -/
structure SidePot where
  amount : Nat
  eligibleSeats : List Nat
deriving DecidableEq, Repr

/-- `Session` from src/poker/engine.ts.  `endedAt : number | null` becomes
`Option Int` (a JavaScript timestamp). -/
structure Session where
  id : String
  startedAt : Int
  endedAt : Option Int
  initialStacks : List Nat
  rebuys : List Nat
deriving DecidableEq, Repr

/-- The per-player record captured inside `RollbackPoint` (engine.ts). -/
structure RollbackPlayer where
  seat : Nat
  stack : Nat
  streetBet : Nat
  totalCommitted : Nat
  status : PlayerStatus
  acted : Bool
  holeCardsText : String
deriving DecidableEq, Repr

/-- `RollbackPoint` from src/poker/engine.ts. -/
structure RollbackPoint where
  phase : Phase
  street : Street
  currentBet : Nat
  actionSeat : Nat
  dealerSeat : Nat
  boardCardsText : String
  potWinners : List (List Nat)
  players : List RollbackPlayer
deriving DecidableEq, Repr

/-- `GameState` from src/poker/engine.ts.  `lastError : string | null`
becomes `Option String`. -/
structure GameState where
  phase : Phase
  config : GameConfig
  players : List Player
  dealerSeat : Nat
  street : Street
  currentBet : Nat
  actionSeat : Nat
  boardCardsText : String
  potWinners : List (List Nat)
  session : Option Session
  rollbackStack : List RollbackPoint
  lastError : Option String
deriving DecidableEq, Repr

/-- `PlayerAction` from src/poker/engine.ts.  The `BET_TO` payload is a raw
number (clamped by the engine), modelled as `Int`. -/
inductive PlayerAction where
  | fold
  | check
  | call
  | allin
  | betTo (betTo : Int)
deriving DecidableEq, Repr

/-- `Action` from src/poker/engine.ts.  Raw numeric payloads that the
reducer clamps are `Int`; seat indices are `Nat`. -/
inductive Action where
  | SETUP_SET_CONFIG (smallBlind bigBlind ante : Int)
  | SETUP_SET_PLAYERS (players : List (String × Int))
  | SETUP_MOVE_PLAYER (from_ to_ : Int)
  | SETUP_SET_DEALER (dealerSeat : Int)
  | SESSION_START (id : String) (startedAt : Int)
  | SESSION_END (endedAt : Int)
  | START_HAND
  | CANCEL_HAND
  | PLAYER_ACT (seat : Nat) (action : PlayerAction)
  | ROLLBACK
  | NEXT_STREET
  | SET_BOARD (text : String)
  | SET_HOLE (seat : Nat) (text : String)
  | SET_POT_WINNERS (potIndex : Int) (seats : List Nat)
  | SET_POT_WINNERS_ALL (potWinners : List (List Nat))
  | SETTLE_HAND
  | REBUY (seat : Nat) (amount : Int)
  | RESET_SESSION
  | RESET_GAME
  | SYNC_SET_SNAPSHOT (state : GameState)
deriving DecidableEq, Repr

/-- `defaultConfig` from engine.ts. -/
def defaultConfig : GameConfig := { smallBlind := 1, bigBlind := 2, ante := 0 }

/-- `createInitialState` from engine.ts. -/
def createInitialState : GameState :=
  { phase := .setup
    config := defaultConfig
    players :=
      [ { seat := 0, name := "玩家1", stack := 200, streetBet := 0,
          totalCommitted := 0, status := .active, acted := false, holeCardsText := "" },
        { seat := 1, name := "玩家2", stack := 200, streetBet := 0,
          totalCommitted := 0, status := .active, acted := false, holeCardsText := "" } ]
    dealerSeat := 0
    street := .preflop
    currentBet := 0
    actionSeat := 0
    boardCardsText := ""
    potWinners := []
    session := none
    rollbackStack := []
    lastError := none }

/-- `clampInt` from engine.ts: `Math.max(min, Math.min(max, Math.trunc(n)))`
(on mathematical integers truncation is the identity and the input is
always finite). -/
def clampInt (n lo hi : Int) : Int := max lo (min hi n)

/-- `clampInt` used at a place where the result is stored in a
non-negative field: the lower clamp bound is `0 ≤ lo`, so `.toNat` is exact. -/
def clampToNat (n : Int) (lo hi : Nat) : Nat := (clampInt n lo hi).toNat

/-- `isEligibleForShowdown` from engine.ts. -/
def isEligibleForShowdown (p : Player) : Bool :=
  p.status != .folded && p.status != .out

/-- The intermediate contribution record built inside `computeSidePots`. -/
structure Contribution where
  seat : Nat
  amount : Nat
  eligible : Bool
deriving DecidableEq, Repr

/-- Ascending sort, modelling `sort((a, b) => a - b)`. -/
def sortAsc (l : List Nat) : List Nat := l.insertionSort (fun a b => a ≤ b)

/-- `Array.from(new Set(l))`: deduplication keeping first occurrences. -/
def jsDedup (l : List Nat) : List Nat :=
  l.foldl (fun acc x => if x ∈ acc then acc else acc ++ [x]) []

/-- The level loop of `computeSidePots` (engine.ts lines 376-384), with the
running `prev` made explicit. -/
def sidePotsLoop (contribs : List Contribution) : Nat → List Nat → List SidePot
  | _, [] => []
  | prev, level :: rest =>
    let contributors := contribs.filter (fun c => decide (level ≤ c.amount))
    let amount := (level - prev) * contributors.length
    let eligibleSeats := (contributors.filter (fun c => c.eligible)).map (fun c => c.seat)
    let tail := sidePotsLoop contribs level rest
    if 0 < amount then ⟨amount, eligibleSeats⟩ :: tail else tail

/-- `computeSidePots` from engine.ts. -/
def computeSidePots (players : List Player) : List SidePot :=
  let contributions :=
    (players.filter (fun p => decide (0 < p.totalCommitted))).map
      (fun p => Contribution.mk p.seat p.totalCommitted (isEligibleForShowdown p))
  let levels := sortAsc (jsDedup (contributions.map (fun c => c.amount)))
  sidePotsLoop contributions 0 levels

/-- `computePotSize` from engine.ts. -/
def computePotSize (players : List Player) : Nat :=
  (players.map (fun p => p.totalCommitted)).sum

/-- The effective winner list of one pot inside `distributePots`:
a pot with exactly one eligible seat auto-assigns to it, otherwise the
declared winners are intersected with the eligible seats. -/
def potEffectiveWinners (pot : SidePot) (winnerSeats : List Nat) : List Nat :=
  match pot.eligibleSeats with
  | [e] => [e]
  | _ => winnerSeats.filter (fun s => decide (s ∈ pot.eligibleSeats))

/-- The `seatOrder` closure of `distributePots`: seats of `seats` in
clockwise order starting immediately after the dealer seat. -/
def seatOrderFrom (dealerSeat totalSeats : Nat) (seats : List Nat) : List Nat :=
  ((List.range totalSeats).map (fun k => (dealerSeat + k + 1) % totalSeats)).filter
    (fun s => decide (s ∈ seats))

/-- The seat receiving the `i`-th remainder chip:
`order[i % order.length] ?? eligibleWinners[i % eligibleWinners.length]`
(the fallback fires exactly when `order` is empty). -/
def remainderSeat (ew order : List Nat) (i : Nat) : Nat :=
  if order.isEmpty then ew.getD (i % ew.length) 0 else order.getD (i % order.length) 0

/-- All `payouts.set(s, (payouts.get(s) ?? 0) + v)` events produced for one
pot by `distributePots`: a `share` for each effective winner, then the
remainder one chip at a time in clockwise seat order after the dealer. -/
def potCredits (pot : SidePot) (winnerSeats : List Nat) (dealerSeat totalSeats : Nat) :
    List (Nat × Nat) :=
  let ew := potEffectiveWinners pot winnerSeats
  if ew.isEmpty then []
  else
    let share := pot.amount / ew.length
    let remainder := pot.amount - share * ew.length
    let order := seatOrderFrom dealerSeat totalSeats ew
    ew.map (fun s => (s, share)) ++
      (List.range remainder).map (fun i => (remainderSeat ew order i, 1))

/-- All credit events of `distributePots` over the whole pot list
(`potWinners[idx] ?? []` is `getD idx []`). -/
def distributePotsCredits (pots : List SidePot) (potWinners : List (List Nat))
    (dealerSeat totalSeats : Nat) : List (Nat × Nat) :=
  (pots.enum.map (fun pr => potCredits pr.2 (potWinners.getD pr.1 []) dealerSeat totalSeats)).flatten

/-- `distributePots` from engine.ts, as the final content of the returned
`Map` at a given seat (`payouts.get(seat) ?? 0`). -/
def distributePots (pots : List SidePot) (potWinners : List (List Nat))
    (dealerSeat totalSeats : Nat) (seat : Nat) : Nat :=
  (((distributePotsCredits pots potWinners dealerSeat totalSeats).filter
      (fun e => e.1 == seat)).map (fun e => e.2)).sum

/-- The sum of all payouts in the `Map` returned by `distributePots`. -/
def distributePotsTotal (pots : List SidePot) (potWinners : List (List Nat))
    (dealerSeat totalSeats : Nat) : Nat :=
  ((distributePotsCredits pots potWinners dealerSeat totalSeats).map (fun e => e.2)).sum

/-- `arrayMove` from engine.ts (`splice` out of `from`, `splice` into `to`;
indices are in range at every call site). -/
def arrayMove {α : Type} (arr : List α) (f t : Nat) : List α :=
  if f = t then arr
  else
    match arr.get? f with
    | none => arr.eraseIdx f
    | some item =>
      let next := arr.eraseIdx f
      next.take t ++ item :: next.drop t

/-- `moveIndex` from engine.ts. -/
def moveIndex (idx f t : Nat) : Nat :=
  if idx = f then t
  else if f < t then (if f < idx ∧ idx ≤ t then idx - 1 else idx)
  else if t < f then (if t ≤ idx ∧ idx < f then idx + 1 else idx)
  else idx

/-- `initialPotWinners` from engine.ts: auto-assign pots with a single
eligible seat, leave the rest unassigned. -/
def initialPotWinners (players : List Player) : List (List Nat) :=
  (computeSidePots players).map (fun p =>
    match p.eligibleSeats with
    | [e] => [e]
    | _ => [])

/-- `normalizePotWinnersForPots` from engine.ts.  The source's `s >= 0`
filter is vacuous for `Nat` seats; the `s <= maxSeat` filter is kept. -/
def normalizePotWinnersForPots (players : List Player) (pots : List SidePot)
    (potWinners : List (List Nat)) : List (List Nat) :=
  let maxSeat := max 0 (players.length - 1)
  pots.enum.map (fun pr =>
    match pr.2.eligibleSeats with
    | [e] => [e]
    | _ =>
      let raw := potWinners.getD pr.1 []
      let uniq := (jsDedup raw).filter (fun s => decide (s ≤ maxSeat))
      uniq.filter (fun s => decide (s ∈ pr.2.eligibleSeats)))

/-- `nextSeatFrom` from engine.ts: first seat after `fromSeat` (wrapping)
whose player satisfies the predicate, else `fromSeat` itself. -/
def nextSeatFrom (players : List Player) (fromSeat : Nat) (pred : Player → Bool) : Nat :=
  if players.length = 0 then 0
  else
    match ((List.range players.length).map
        (fun k => (fromSeat + k + 1) % players.length)).find?
        (fun s => match players.get? s with
          | some p => pred p
          | none => false) with
    | some s => s
    | none => fromSeat

/-- `countRemaining` from engine.ts. -/
def countRemaining (players : List Player) : Nat :=
  (players.filter (fun p => p.status == .active || p.status == .allin)).length

/-- `normalizeAfterError` from engine.ts. -/
def normalizeAfterError (state : GameState) : GameState := { state with lastError := none }

/-- `postForcedBet` from engine.ts.  `Math.max(0, Math.min(amount, stack))`
is `min amount stack` on `Nat`. -/
def postForcedBet (player : Player) (amount : Nat) : Player :=
  if player.status == .out then player
  else
    let pay := min amount player.stack
    let nextStack := player.stack - pay
    { player with
      stack := nextStack
      streetBet := player.streetBet + pay
      totalCommitted := player.totalCommitted + pay
      status := if nextStack = 0 then .allin else player.status }

/-- JavaScript truthiness of `session.endedAt` (a `0` timestamp is falsy). -/
def endedAtTruthy (ses : Session) : Bool :=
  match ses.endedAt with
  | some t => decide (t ≠ 0)
  | none => false

/-- Truthiness of `state.session?.endedAt`. -/
def sessionEndedTruthy (session : Option Session) : Bool :=
  match session with
  | some ses => endedAtTruthy ses
  | none => false

/-- Truthiness of `cleared.session && !cleared.session.endedAt`. -/
def sessionActiveTruthy (session : Option Session) : Bool :=
  match session with
  | some ses => !endedAtTruthy ses
  | none => false

/-- The player reset performed at the top of `beginHand` (street bet and
commitment zeroed, `out` iff the stack is empty — `stack <= 0` is
`stack = 0` on `Nat`). -/
def resetForHand (p : Player) : Player :=
  { p with streetBet := 0, totalCommitted := 0, acted := false,
           status := if p.stack = 0 then PlayerStatus.out else PlayerStatus.active }

/-- `beginHand` from engine.ts. -/
def beginHand (state : GameState) : GameState :=
  if sessionEndedTruthy state.session then
    { state with lastError := some "本局游戏已结束，请开始新一局" }
  else
    let players := state.players.map resetForHand
    let activeSeats := (players.filter (fun p => p.status == .active)).map (fun p => p.seat)
    if activeSeats.length < 2 then
      { state with lastError := some "需要至少2个有筹码的玩家才能开始" }
    else
      let dealerSeat :=
        if state.dealerSeat ∈ activeSeats then state.dealerSeat else activeSeats.headD 0
      let sbSeat := nextSeatFrom players dealerSeat (fun p => p.status == .active)
      let bbSeat := nextSeatFrom players sbSeat (fun p => p.status == .active)
      let withAntes :=
        if 0 < state.config.ante then
          players.map (fun p => if p.status == .active then postForcedBet p state.config.ante else p)
        else players
      let withSB := withAntes.map
        (fun p => if p.seat = sbSeat then postForcedBet p state.config.smallBlind else p)
      let withBB := withSB.map
        (fun p => if p.seat = bbSeat then postForcedBet p state.config.bigBlind else p)
      let currentBet := state.config.bigBlind
      let actionSeat :=
        nextSeatFrom withBB bbSeat (fun p => p.status == .active && decide (0 < p.stack))
      { state with
        phase := .hand
        players := withBB.map (fun p => { p with acted := false })
        dealerSeat := dealerSeat
        street := .preflop
        currentBet := currentBet
        actionSeat := actionSeat
        potWinners := []
        boardCardsText := ""
        rollbackStack := []
        lastError := none }

/-- `toCallFor` from engine.ts (`Math.max(0, …)` is `Nat` truncated
subtraction). -/
def toCallFor (player : Player) (state : GameState) : Nat :=
  state.currentBet - player.streetBet

/-- `needsAction` from engine.ts (`stack <= 0` is `stack = 0` on `Nat`). -/
def needsAction (player : Player) (state : GameState) : Bool :=
  if player.status != .active then false
  else if player.stack = 0 then false
  else if !player.acted then true
  else player.streetBet != state.currentBet

/-- `findNextActionSeat` from engine.ts. -/
def findNextActionSeat (state : GameState) (fromSeat : Nat) : Nat :=
  nextSeatFrom state.players fromSeat (fun p => needsAction p state)

/-- `isBettingRoundComplete` from engine.ts. -/
def isBettingRoundComplete (state : GameState) : Bool :=
  decide ((state.players.filter (fun p => needsAction p state)).length = 0)

/-- `moveToNextStreet` from engine.ts. -/
def moveToNextStreet (state : GameState) : GameState :=
  let remaining := state.players.filter (fun p => p.status == .active || p.status == .allin)
  if remaining.length ≤ 1 then
    { state with
      phase := .showdown
      street := state.street
      currentBet := 0
      players := state.players.map (fun p => { p with streetBet := 0, acted := true })
      actionSeat := state.actionSeat
      potWinners := initialPotWinners state.players
      lastError := none }
  else if !(remaining.any (fun p => p.status == .active)) then
    { state with
      phase := .showdown
      street := state.street
      currentBet := 0
      players := state.players.map (fun p => { p with streetBet := 0, acted := true })
      potWinners := initialPotWinners state.players
      lastError := none }
  else if state.street == .river then
    { state with
      phase := .showdown
      street := .river
      currentBet := 0
      players := state.players.map (fun p => { p with streetBet := 0, acted := true })
      potWinners := initialPotWinners state.players
      lastError := none }
  else
    let nextStreet : Street :=
      match state.street with
      | .preflop => .flop
      | .flop => .turn
      | .turn => .river
      | .river => .river
    let players := state.players.map
      (fun p => { p with streetBet := 0, acted := p.status != .active })
    let actionSeat :=
      nextSeatFrom players state.dealerSeat (fun p => p.status == .active && decide (0 < p.stack))
    { state with
      phase := .hand
      street := nextStreet
      players := players
      currentBet := 0
      actionSeat := actionSeat
      lastError := none }

/-- The `pay` closure of `applyPlayerAction` (engine.ts lines 446-456). -/
def payPlayer (p : Player) (amount : Nat) : Player :=
  let payAmount := min amount p.stack
  let nextStack := p.stack - payAmount
  { p with
    stack := nextStack
    streetBet := p.streetBet + payAmount
    totalCommitted := p.totalCommitted + payAmount
    status := if nextStack = 0 then .allin else p.status }

/-- The common tail of `applyPlayerAction` (engine.ts lines 501-524):
early-showdown check, reopening the round after a raise, advancing the
action seat, closing the street when complete. -/
def finishPlayerAction (state : GameState) (seat : Nat) (players : List Player)
    (currentBet : Nat) (raised : Bool) : GameState :=
  if countRemaining players ≤ 1 then
    { state with
      players := players.map (fun p => { p with acted := true })
      currentBet := currentBet
      phase := .showdown
      potWinners := initialPotWinners players
      lastError := none }
  else
    let players2 :=
      if raised then
        players.map (fun p =>
          if p.status == .active && p.seat != seat then { p with acted := false } else p)
      else players
    let nextSeat := findNextActionSeat { state with players := players2, currentBet := currentBet } seat
    let nextState : GameState :=
      { state with players := players2, currentBet := currentBet,
                   actionSeat := nextSeat, lastError := none }
    if isBettingRoundComplete nextState then moveToNextStreet nextState else nextState

/-- `applyPlayerAction` from engine.ts. -/
def applyPlayerAction (state : GameState) (seat : Nat) (action : PlayerAction) : GameState :=
  match state.players.get? seat with
  | none => { state with lastError := some "座位无效" }
  | some actor =>
    if actor.seat ≠ seat then { state with lastError := some "座位无效" }
    else if state.phase ≠ .hand then { state with lastError := some "当前不在行动阶段" }
    else if seat ≠ state.actionSeat then { state with lastError := some "还没轮到该玩家行动" }
    else if actor.status ≠ .active then { state with lastError := some "该玩家无法行动" }
    else
      let toCall := toCallFor actor state
      if action = .check ∧ toCall ≠ 0 then
        { state with lastError := some "当前不能check，需要跟注或弃牌" }
      else
        match action with
        | .fold =>
          finishPlayerAction state seat
            (state.players.set seat { actor with status := .folded, acted := true })
            state.currentBet false
        | .check =>
          finishPlayerAction state seat
            (state.players.set seat { actor with acted := true })
            state.currentBet false
        | .call =>
          finishPlayerAction state seat
            (state.players.set seat { payPlayer actor toCall with acted := true })
            state.currentBet false
        | .allin =>
          let betTo := actor.streetBet + actor.stack
          let raised := decide (state.currentBet < betTo)
          let currentBet := if state.currentBet < betTo then betTo else state.currentBet
          finishPlayerAction state seat
            (state.players.set seat { payPlayer actor actor.stack with acted := true })
            currentBet raised
        | .betTo bt =>
          let rawBetTo := clampToNat bt 0 1000000000
          let maxBetTo := actor.streetBet + actor.stack
          let targetBetTo := clampToNat (Int.ofNat rawBetTo) 0 maxBetTo
          if rawBetTo ≤ state.currentBet ∧ targetBetTo ≤ state.currentBet then
            { state with lastError := some "下注/加注金额需要大于当前下注" }
          else if targetBetTo ≤ actor.streetBet then
            { state with lastError := some "下注金额需要大于本街已下注" }
          else
            let delta := targetBetTo - actor.streetBet
            let paid := { payPlayer actor delta with acted := true }
            let actualBetTo := paid.streetBet
            let raised := decide (state.currentBet < actualBetTo)
            let currentBet := if state.currentBet < actualBetTo then actualBetTo else state.currentBet
            finishPlayerAction state seat (state.players.set seat paid) currentBet raised

/-- `settleHand` from engine.ts. -/
def settleHand (state : GameState) : GameState :=
  if state.players.length < 2 then state
  else
    let pots := computeSidePots state.players
    let normalizedPotWinners := normalizePotWinnersForPots state.players pots state.potWinners
    if pots.enum.any (fun pr =>
        decide (1 < pr.2.eligibleSeats.length) &&
        decide ((normalizedPotWinners.getD pr.1 []).length = 0)) then
      { state with lastError := some "请为每个池子分别选择胜者" }
    else
      let payout := distributePots pots normalizedPotWinners state.dealerSeat state.players.length
      let players := state.players.map (fun p =>
        let nextStack := p.stack + payout p.seat
        { p with stack := nextStack, streetBet := 0, totalCommitted := 0, acted := false,
                 status := if nextStack = 0 then PlayerStatus.out else PlayerStatus.active })
      let dealerSeat := nextSeatFrom players state.dealerSeat (fun p => p.status != .out)
      { state with
        phase := .setup
        players := players
        dealerSeat := dealerSeat
        street := .preflop
        currentBet := 0
        actionSeat := dealerSeat
        potWinners := []
        boardCardsText := ""
        rollbackStack := []
        lastError := none }

/-- `cancelHand` from engine.ts. -/
def cancelHand (state : GameState) : GameState :=
  if state.phase ≠ .hand ∧ state.phase ≠ .showdown then state
  else
    let players := state.players.map (fun p =>
      let nextStack := p.stack + p.totalCommitted
      { p with stack := nextStack, streetBet := 0, totalCommitted := 0, acted := false,
               status := if nextStack = 0 then PlayerStatus.out else PlayerStatus.active,
               holeCardsText := "" })
    let dealerSeat := clampToNat (Int.ofNat state.dealerSeat) 0 (max 0 (players.length - 1))
    { state with
      phase := .setup
      players := players
      dealerSeat := dealerSeat
      street := .preflop
      currentBet := 0
      actionSeat := dealerSeat
      potWinners := []
      boardCardsText := ""
      rollbackStack := []
      lastError := none }

/-- The per-player capture made by `makeRollbackPoint`. -/
def capturePlayer (p : Player) : RollbackPlayer :=
  { seat := p.seat, stack := p.stack, streetBet := p.streetBet,
    totalCommitted := p.totalCommitted, status := p.status, acted := p.acted,
    holeCardsText := p.holeCardsText }

/-- `makeRollbackPoint` from engine.ts (the source's array copies are
identities on values). -/
def makeRollbackPoint (state : GameState) : RollbackPoint :=
  { phase := state.phase
    street := state.street
    currentBet := state.currentBet
    actionSeat := state.actionSeat
    dealerSeat := state.dealerSeat
    boardCardsText := state.boardCardsText
    potWinners := state.potWinners
    players := state.players.map capturePlayer }

/-- The `bySeat` map of `rollbackOnce`: the last captured entry with the
given seat wins, exactly as repeated `Map.set` does. -/
def lastBySeat (ps : List RollbackPlayer) (s : Nat) : Option RollbackPlayer :=
  ps.foldl (fun acc p => if p.seat = s then some p else acc) none

/-- Field-for-field restoration of one player from a rollback capture. -/
def restorePlayer (p : Player) (prev : RollbackPlayer) : Player :=
  { p with stack := prev.stack, streetBet := prev.streetBet,
           totalCommitted := prev.totalCommitted, status := prev.status,
           acted := prev.acted, holeCardsText := prev.holeCardsText }

/-- `rollbackOnce` from engine.ts (`stack[stack.length - 1]` is `getLast?`,
`slice(0, -1)` is `dropLast`). -/
def rollbackOnce (state : GameState) : GameState :=
  match state.rollbackStack.getLast? with
  | none => state
  | some last =>
    let players := state.players.map (fun p =>
      match lastBySeat last.players p.seat with
      | none => p
      | some prev => restorePlayer p prev)
    { state with
      phase := last.phase
      street := last.street
      currentBet := last.currentBet
      actionSeat := last.actionSeat
      dealerSeat := last.dealerSeat
      boardCardsText := last.boardCardsText
      potWinners := last.potWinners
      players := players
      rollbackStack := state.rollbackStack.dropLast
      lastError := none }

/-- The old-index → new-index matching loop of the active-session
`SETUP_SET_PLAYERS` branch (engine.ts lines 801-811), producing the
`oldToNew` association in insertion order. -/
def matchOldToNew (reqs : List (String × Nat)) : List (Nat × Player) → Nat → List (Nat × Nat)
  | [], _ => []
  | (i, prev) :: rest, j =>
    if j < reqs.length then
      match reqs.get? j with
      | some next =>
        if next.1 = prev.name ∧ next.2 = prev.stack then (i, j) :: matchOldToNew reqs rest (j + 1)
        else matchOldToNew reqs rest j
      | none => matchOldToNew reqs rest j
    else []

/-- First-match lookup in an association list (the keys produced by
`matchOldToNew` are distinct, so this is exactly `Map.get`). -/
def assocLookup (l : List (Nat × Nat)) (k : Nat) : Option Nat :=
  (l.find? (fun pr => pr.1 == k)).map (fun pr => pr.2)

/-- The requested-player normalization of `SETUP_SET_PLAYERS`:
`name.trim() || 玩家{idx+1}` and `clampInt(stack, 0, 1e9)`. -/
def normalizeRequested (players : List (String × Int)) : List (String × Nat) :=
  players.enum.map (fun pr =>
    (let nm := pr.2.1.trim
     if nm = "" then "玩家" ++ toString (pr.1 + 1) else nm,
     clampToNat pr.2.2 0 1000000000))

/-- The `SETUP_SET_PLAYERS` branch of the reducer (engine.ts lines
777-898), operating on the already error-cleared state. -/
def setupSetPlayers (cleared : GameState) (ps : List (String × Int)) : GameState :=
  if ps.length < 2 then { cleared with lastError := some "至少需要2名玩家" }
  else if 10 < ps.length then { cleared with lastError := some "最多支持10名玩家" }
  else if sessionActiveTruthy cleared.session then
    if cleared.phase ≠ .setup then
      { cleared with lastError := some "只能在准备阶段新增/删除玩家" }
    else
      let requested := normalizeRequested ps
      if requested.length = cleared.players.length then
        if (requested.zip cleared.players).any (fun rp => rp.1.2 != rp.2.stack) then
          { cleared with lastError := some "本局游戏进行中，不能修改现有玩家筹码（可通过补码调整）" }
        else
          let players := cleared.players.enum.map (fun pr =>
            { pr.2 with seat := pr.1,
                        name := ((requested.get? pr.1).map Prod.fst).getD pr.2.name })
          { cleared with players := players, lastError := none }
      else
        let oldToNew := matchOldToNew requested cleared.players.enum 0
        let newToOld := oldToNew.map (fun pr => (pr.2, pr.1))
        let nextPlayers : List Player := requested.enum.map (fun pr =>
          { seat := pr.1, name := pr.2.1, stack := pr.2.2, streetBet := 0,
            totalCommitted := 0,
            status := if 0 < pr.2.2 then PlayerStatus.active else PlayerStatus.out,
            acted := false, holeCardsText := "" })
        let dealerSeat0 :=
          match assocLookup oldToNew cleared.dealerSeat with
          | some direct => direct
          | none =>
            let upward :=
              (List.range' (cleared.dealerSeat + 1)
                (cleared.players.length - (cleared.dealerSeat + 1))).find?
                (fun i => (assocLookup oldToNew i).isSome)
            let fallbackOld :=
              match upward with
              | some i => some i
              | none => (List.range cleared.dealerSeat).reverse.find?
                  (fun i => (assocLookup oldToNew i).isSome)
            match fallbackOld with
            | some fo => (assocLookup oldToNew fo).getD 0
            | none => 0
        let dealerSeat := clampToNat (Int.ofNat dealerSeat0) 0 (max 0 (nextPlayers.length - 1))
        let session :=
          match cleared.session with
          | none => none
          | some ses =>
            some { ses with
              initialStacks := (List.range nextPlayers.length).map (fun idx =>
                match assocLookup newToOld idx with
                | some oldIdx =>
                  ses.initialStacks.getD oldIdx
                    (((cleared.players.get? oldIdx).map (fun p => p.stack)).getD 0)
                | none => ((nextPlayers.get? idx).map (fun p => p.stack)).getD 0)
              rebuys := (List.range nextPlayers.length).map (fun idx =>
                match assocLookup newToOld idx with
                | some oldIdx => ses.rebuys.getD oldIdx 0
                | none => 0) }
        { cleared with
          phase := .setup
          players := nextPlayers
          dealerSeat := dealerSeat
          actionSeat := dealerSeat
          currentBet := 0
          boardCardsText := ""
          potWinners := []
          rollbackStack := []
          session := session
          lastError := none }
  else
    let players : List Player := ps.enum.map (fun pr =>
      { seat := pr.1
        name := (let nm := pr.2.1.trim
                 if nm = "" then "玩家" ++ toString (pr.1 + 1) else nm)
        stack := clampToNat pr.2.2 0 1000000000
        streetBet := 0
        totalCommitted := 0
        status := if (0 : Int) < pr.2.2 then PlayerStatus.active else PlayerStatus.out
        acted := false
        holeCardsText := "" })
    { cleared with players := players, dealerSeat := 0, phase := .setup, rollbackStack := [] }

/-- The body of `reducer` (engine.ts lines 662-1007), applied to the
already error-cleared input state. -/
def reducerGo (cleared : GameState) : Action → GameState
  | .RESET_SESSION =>
    let baseline : List Nat :=
      match cleared.session with
      | some ses =>
        if ses.initialStacks.length = cleared.players.length then ses.initialStacks
        else cleared.players.map (fun p => p.stack)
      | none => cleared.players.map (fun p => p.stack)
    let players := cleared.players.enum.map (fun pr =>
      let stack := clampToNat (Int.ofNat (baseline.getD pr.1 pr.2.stack)) 0 1000000000
      { pr.2 with seat := pr.1, stack := stack, streetBet := 0, totalCommitted := 0,
                  status := if 0 < stack then PlayerStatus.active else PlayerStatus.out,
                  acted := false, holeCardsText := "" })
    let dealerSeat := clampToNat (Int.ofNat cleared.dealerSeat) 0 (max 0 (players.length - 1))
    { cleared with
      phase := .setup
      players := players
      dealerSeat := dealerSeat
      actionSeat := dealerSeat
      street := .preflop
      currentBet := 0
      boardCardsText := ""
      potWinners := []
      rollbackStack := []
      session := none
      lastError := none }
  | .RESET_GAME => createInitialState
  | .SYNC_SET_SNAPSHOT incoming =>
    let pots := computeSidePots incoming.players
    let potWinners := normalizePotWinnersForPots incoming.players pots incoming.potWinners
    { incoming with potWinners := potWinners }
  | .SESSION_START id startedAt =>
    if sessionActiveTruthy cleared.session then cleared
    else
      { cleared with
        phase := .setup
        street := .preflop
        currentBet := 0
        boardCardsText := ""
        potWinners := []
        rollbackStack := []
        actionSeat := cleared.dealerSeat
        session := some
          { id := id, startedAt := startedAt, endedAt := none,
            initialStacks := cleared.players.map (fun p => p.stack),
            rebuys := cleared.players.map (fun _ => 0) } }
  | .SESSION_END endedAt =>
    match cleared.session with
    | none => cleared
    | some ses =>
      if endedAtTruthy ses then cleared
      else
        { cleared with
          phase := .setup
          street := .preflop
          currentBet := 0
          boardCardsText := ""
          potWinners := []
          rollbackStack := []
          session := some { ses with endedAt := some endedAt }
          lastError := none }
  | .SETUP_SET_CONFIG smallBlind bigBlind ante =>
    if sessionActiveTruthy cleared.session then
      { cleared with lastError := some "本局游戏进行中，不能修改规则设置" }
    else
      { cleared with config :=
          { smallBlind := clampToNat smallBlind 0 1000000
            bigBlind := clampToNat bigBlind 0 1000000
            ante := clampToNat ante 0 1000000 } }
  | .SETUP_SET_PLAYERS ps => setupSetPlayers cleared ps
  | .SETUP_MOVE_PLAYER f t =>
    if cleared.phase ≠ .setup then
      { cleared with lastError := some "只能在准备阶段调整玩家顺序" }
    else
      let len := cleared.players.length
      if len ≤ 1 then cleared
      else
        let f' := clampToNat f 0 (len - 1)
        let t' := clampToNat t 0 (len - 1)
        if f' = t' then cleared
        else
          let moved := arrayMove cleared.players f' t'
          let players := moved.enum.map (fun pr => { pr.2 with seat := pr.1 })
          let dealerSeat := clampToNat (Int.ofNat (moveIndex cleared.dealerSeat f' t')) 0 (len - 1)
          let session :=
            match cleared.session with
            | none => none
            | some ses =>
              some { ses with
                initialStacks :=
                  if ses.initialStacks.length = len then arrayMove ses.initialStacks f' t'
                  else ses.initialStacks
                rebuys :=
                  if ses.rebuys.length = len then arrayMove ses.rebuys f' t'
                  else ses.rebuys }
          { cleared with
            phase := .setup
            street := .preflop
            currentBet := 0
            players := players
            dealerSeat := dealerSeat
            actionSeat := dealerSeat
            boardCardsText := ""
            potWinners := []
            rollbackStack := []
            session := session
            lastError := none }
  | .SETUP_SET_DEALER d =>
    { cleared with dealerSeat := clampToNat d 0 (max 0 (cleared.players.length - 1)) }
  | .START_HAND => beginHand cleared
  | .CANCEL_HAND => cancelHand cleared
  | .PLAYER_ACT seat act =>
    if cleared.phase ≠ .hand then applyPlayerAction cleared seat act
    else if seat ≠ cleared.actionSeat then applyPlayerAction cleared seat act
    else
      match cleared.players.get? seat with
      | none => applyPlayerAction cleared seat act
      | some actor =>
        if actor.seat ≠ seat ∨ actor.status ≠ .active then applyPlayerAction cleared seat act
        else
          let point := makeRollbackPoint cleared
          let rollbackStack := cleared.rollbackStack ++ [point]
          let maxRollback := 50
          let nextStack :=
            if maxRollback < rollbackStack.length then
              rollbackStack.drop (rollbackStack.length - maxRollback)
            else rollbackStack
          applyPlayerAction { cleared with rollbackStack := nextStack } seat act
  | .ROLLBACK => rollbackOnce cleared
  | .NEXT_STREET => moveToNextStreet cleared
  | .SET_BOARD text => { cleared with boardCardsText := text }
  | .SET_HOLE seat text =>
    { cleared with players :=
        cleared.players.map (fun p => if p.seat = seat then { p with holeCardsText := text } else p) }
  | .SET_POT_WINNERS potIndex seats =>
    let pots := computeSidePots cleared.players
    let pi := clampToNat potIndex 0 (max 0 (pots.length - 1))
    let base := cleared.potWinners
    let merged := pots.enum.map (fun pr =>
      if pr.1 ≠ pi then
        base.getD pr.1 (match pr.2.eligibleSeats with
          | [e] => [e]
          | _ => [])
      else
        match pr.2.eligibleSeats with
        | [e] => [e]
        | _ =>
          let maxSeat := max 0 (cleared.players.length - 1)
          ((jsDedup seats).filter (fun s => decide (s ≤ maxSeat))).filter
            (fun s => decide (s ∈ pr.2.eligibleSeats)))
    { cleared with potWinners := merged }
  | .SET_POT_WINNERS_ALL pw =>
    { cleared with potWinners :=
        normalizePotWinnersForPots cleared.players (computeSidePots cleared.players) pw }
  | .SETTLE_HAND => settleHand cleared
  | .REBUY seat amount =>
    let amount := clampToNat amount 0 1000000000
    let players := cleared.players.map (fun p =>
      if p.seat ≠ seat then p
      else
        let nextStack := p.stack + amount
        { p with stack := nextStack,
                 status := if 0 < nextStack ∧ p.status = .out then .active else p.status })
    let session :=
      match cleared.session with
      | some ses =>
        if !endedAtTruthy ses then
          some { ses with rebuys :=
            ses.rebuys.enum.map (fun pr => if pr.1 = seat then pr.2 + amount else pr.2) }
        else cleared.session
      | none => cleared.session
    { cleared with players := players, session := session }

/-- `reducer` from engine.ts: clear the previous error, then dispatch. -/
def reducer (state : GameState) (action : Action) : GameState :=
  reducerGo (normalizeAfterError state) action

/-- `toCall` from engine.ts. -/
def toCall (state : GameState) (seat : Nat) : Nat :=
  match state.players.get? seat with
  | none => 0
  | some p => toCallFor p state

/-- `minRaiseTo` from engine.ts. -/
def minRaiseTo (state : GameState) : Nat :=
  if state.currentBet = 0 then state.config.bigBlind
  else state.currentBet + max 1 state.config.bigBlind

/-! ### Card parsing (src/poker/handEval.ts) -/

/-- `Suit` from handEval.ts. -/
inductive Suit where
  | s
  | h
  | d
  | c
deriving DecidableEq, Repr

/-- `Card` from handEval.ts. -/
structure Card where
  r : Nat
  s : Suit
  text : String
deriving DecidableEq, Repr

/-- `rankMap` from handEval.ts. -/
def rankMap : String → Option Nat
  | "2" => some 2
  | "3" => some 3
  | "4" => some 4
  | "5" => some 5
  | "6" => some 6
  | "7" => some 7
  | "8" => some 8
  | "9" => some 9
  | "T" => some 10
  | "J" => some 11
  | "Q" => some 12
  | "K" => some 13
  | "A" => some 14
  | _ => none

/-- `normalizeSuitChar` from handEval.ts. -/
def normalizeSuitChar (ch : Char) : Option Suit :=
  let c := ch.toLower
  if c = 's' then some .s
  else if c = 'h' then some .h
  else if c = 'd' then some .d
  else if c = 'c' then some .c
  else if ch = '♠' then some .s
  else if ch = '♥' then some .h
  else if ch = '♦' then some .d
  else if ch = '♣' then some .c
  else none

/-- The ASCII whitespace characters matched by JavaScript `trim` / `\s`
(the exotic Unicode space characters also matched there never occur in the
inputs considered by this development). -/
def isJsWhitespace (c : Char) : Bool :=
  c = ' ' || c = '\t' || c = '\n' || c = '\r' || c = '\x0b' || c = '\x0c'

/-- JavaScript `String.prototype.trim` on a character list. -/
def trimChars (l : List Char) : List Char :=
  ((l.dropWhile isJsWhitespace).reverse.dropWhile isJsWhitespace).reverse

/-- `normalizeRankText` from handEval.ts. -/
def normalizeRankText (text : List Char) : Option String :=
  let t := (trimChars text).map Char.toUpper
  if t = ['1', '0'] then some "T"
  else
    match t with
    | [ch] =>
      match rankMap (String.mk [ch]) with
      | some _ => some (String.mk [ch])
      | none => none
    | _ => none

/-- Splitting on runs of whitespace (`split(/\s+/g).filter(Boolean)`). -/
def splitWsGo : List Char → List Char → List (List Char)
  | [], acc => if acc.isEmpty then [] else [acc.reverse]
  | ch :: rest, acc =>
    if isJsWhitespace ch then
      if acc.isEmpty then splitWsGo rest [] else acc.reverse :: splitWsGo rest []
    else splitWsGo rest (ch :: acc)

/-- `raw.split(/\s+/g).filter(Boolean)` from `parseCardsText`. -/
def splitWs (l : List Char) : List (List Char) := splitWsGo l []

/-- Decomposition of one token into rank text and suit character
(handEval.ts lines 83-91): two characters, or three characters starting
with `10`. -/
def splitCardToken (tok : List Char) : Option (List Char × Char) :=
  match tok with
  | [c0, c1] => some ([c0], c1)
  | [c0, c1, c2] => if c0 = '1' ∧ c1 = '0' then some (['1', '0'], c2) else none
  | _ => none

/-- The canonical text of a suit. -/
def suitStr : Suit → String
  | .s => "s"
  | .h => "h"
  | .d => "d"
  | .c => "c"

/-- The token loop of `parseCardsText` (handEval.ts lines 76-102).  The
`(rankMap rKey).getD 0` default is unreachable: `normalizeRankText` only
returns keys of `rankMap`. -/
def parseTokensLoop : List (List Char) → List String → List Card → List Card × Option String
  | [], _, cards => (cards, none)
  | t :: rest, seen, cards =>
    let token := trimChars t
    if token.isEmpty then parseTokensLoop rest seen cards
    else
      match splitCardToken token with
      | none => ([], some ("无法解析牌面：" ++ String.mk token))
      | some (rankText, suitText) =>
        match normalizeRankText rankText, normalizeSuitChar suitText with
        | some rKey, some sKey =>
          let r := (rankMap rKey).getD 0
          let id := rKey ++ suitStr sKey
          if id ∈ seen then ([], some ("重复牌：" ++ String.mk token))
          else parseTokensLoop rest (seen ++ [id]) (cards ++ [⟨r, sKey, id⟩])
        | _, _ => ([], some ("无法解析牌面：" ++ String.mk token))

/-- `parseCardsText` from handEval.ts, on a character list.  The four
`replaceAll` calls substitute a space for commas, full-width commas,
newlines and tabs. -/
def parseCardsText (input : List Char) : List Card × Option String :=
  let raw := trimChars (input.map (fun ch =>
    if ch = ',' ∨ ch = '，' ∨ ch = '\n' ∨ ch = '\t' then ' ' else ch))
  if raw.isEmpty then ([], none)
  else parseTokensLoop (splitWs raw) [] []

/-! ### Derived quantities and predicates used by the properties -/

/-- Total chips in front of and committed by the players. -/
def chipSum (ps : List Player) : Nat := (ps.map (fun p => p.stack + p.totalCommitted)).sum

/-- Total chips captured inside a rollback point. -/
def rpChipSum (ps : List RollbackPlayer) : Nat :=
  (ps.map (fun p => p.stack + p.totalCommitted)).sum

/-- Sum of the player stacks. -/
def stackSum (ps : List Player) : Nat := (ps.map (fun p => p.stack)).sum

/-- Sum of the committed totals. -/
def committedSum (ps : List Player) : Nat := (ps.map (fun p => p.totalCommitted)).sum

/-- Sum of the amounts of a pot list. -/
def potAmountSum (pots : List SidePot) : Nat := (pots.map (fun p => p.amount)).sum

/-- Applying a whole action sequence through the reducer. -/
def applyActions (s : GameState) (acts : List Action) : GameState := acts.foldl reducer s

/-- §3 data-model invariant: seat indices are the array position. -/
def seatsIndexed (ps : List Player) : Prop :=
  ∀ i (h : i < ps.length), (ps.get ⟨i, h⟩).seat = i

/-- Seat indices of a rollback capture are the array position. -/
def rpSeatsIndexed (ps : List RollbackPlayer) : Prop :=
  ∀ i (h : i < ps.length), (ps.get ⟨i, h⟩).seat = i

/-- The two guards of `beginHand` both pass: the session has not ended and
at least two players have chips. -/
def startHandOk (s : GameState) : Prop :=
  sessionEndedTruthy s.session = false ∧
  2 ≤ (((s.players.map resetForHand).filter (fun p => p.status == .active)).map
        (fun p => p.seat)).length

/-- The in-hand play actions (the actions that only move chips between a
player's stack and commitment, or restore a snapshot of the same hand). -/
def isHandPlayAction : Action → Bool
  | .PLAYER_ACT _ _ => true
  | .ROLLBACK => true
  | .NEXT_STREET => true
  | .SET_BOARD _ => true
  | .SET_HOLE _ _ => true
  | .SET_POT_WINNERS _ _ => true
  | .SET_POT_WINNERS_ALL _ => true
  | .CANCEL_HAND => true
  | _ => false

/-- An action that conserves chips from state `s`: a hand-play action, or
`SETTLE_HAND` when every computed side pot has at least one
showdown-eligible seat. -/
def conservesChips (s : GameState) (a : Action) : Bool :=
  isHandPlayAction a ||
    (match a with
     | .SETTLE_HAND => (computeSidePots s.players).all (fun pot => !pot.eligibleSeats.isEmpty)
     | _ => false)

/-- Every step of the action sequence conserves chips from the state it is
applied to. -/
def conservativeTrace : GameState → List Action → Bool
  | _, [] => true
  | s, a :: rest => conservesChips s a && conservativeTrace (reducer s a) rest

/-- The conditions under which the reducer's `PLAYER_ACT` branch pushes a
rollback point before applying the action (engine.ts lines 944-954). -/
def pushesRollback (s : GameState) (seat : Nat) : Prop :=
  s.phase = .hand ∧ seat = s.actionSeat ∧
    match s.players.get? seat with
    | some actor => actor.seat = seat ∧ actor.status = .active
    | none => False

/-- The rejection condition of the `BET_TO` branch of `applyPlayerAction`
(engine.ts lines 483-489), for the given actor. -/
def betToRejected (state : GameState) (actor : Player) (bt : Int) : Prop :=
  let rawBetTo := clampToNat bt 0 1000000000
  let maxBetTo := actor.streetBet + actor.stack
  let targetBetTo := clampToNat (Int.ofNat rawBetTo) 0 maxBetTo
  (rawBetTo ≤ state.currentBet ∧ targetBetTo ≤ state.currentBet) ∨ targetBetTo ≤ actor.streetBet

/-- The rollback stack produced by the reducer's push (append the capture,
keep the newest 50 entries). -/
def pushedRollbackStack (s : GameState) : List RollbackPoint :=
  let rollbackStack := s.rollbackStack ++ [makeRollbackPoint s]
  if 50 < rollbackStack.length then rollbackStack.drop (rollbackStack.length - 50)
  else rollbackStack

instance (ps : List Player) : Decidable (seatsIndexed ps) := by
  unfold seatsIndexed; infer_instance

instance (ps : List RollbackPlayer) : Decidable (rpSeatsIndexed ps) := by
  unfold rpSeatsIndexed; infer_instance

instance (s : GameState) : Decidable (startHandOk s) := by
  unfold startHandOk; infer_instance

instance (s : GameState) (seat : Nat) : Decidable (pushesRollback s seat) := by
  unfold pushesRollback
  cases s.players.get? seat <;> infer_instance

instance (state : GameState) (actor : Player) (bt : Int) :
    Decidable (betToRejected state actor bt) := by
  unfold betToRejected; infer_instance

/-- The identity-like data of a player that no in-hand operation touches:
its seat and its name. -/
def playerKey (p : Player) : Nat × String := (p.seat, p.name)

/-- A player action immediately followed by a rollback. -/
def rollbackAfterAct (s : GameState) (seat : Nat) (act : PlayerAction) : GameState :=
  reducer (reducer s (Action.PLAYER_ACT seat act)) Action.ROLLBACK

/-- The inductive invariant for chip conservation: seats are array
positions, the chips on the table total `S`, and every rollback capture
also records a table of the same size totalling `S`. -/
def stateInv (S : Nat) (s : GameState) : Prop :=
  seatsIndexed s.players ∧ chipSum s.players = S ∧
  ∀ pt ∈ s.rollbackStack,
    pt.players.length = s.players.length ∧ rpSeatsIndexed pt.players ∧ rpChipSum pt.players = S

/-- Ghost quantity for the pot-partition proof: how much one contribution
of size `c` pays into the pot tiers `levels` when the previous tier closed
at `prev`. -/
def levelShare (c : Nat) : Nat → List Nat → Nat
  | _, [] => 0
  | prev, l :: rest => (if l ≤ c then l - prev else 0) + levelShare c l rest

/-! ## Helper lemmas -/

theorem sum_map_add {α : Type} (l : List α) (f g : α → Nat) :
    (l.map (fun a => f a + g a)).sum = (l.map f).sum + (l.map g).sum := by
  induction l with
  | nil => rfl
  | cons a t ih => simp only [List.map_cons, List.sum_cons, ih]; omega

theorem sum_map_const {α : Type} (l : List α) (k : Nat) :
    (l.map (fun _ => k)).sum = l.length * k := by
  induction l with
  | nil => simp
  | cons a t ih => simp only [List.map_cons, List.sum_cons, ih, List.length_cons]; ring

theorem mul_filter_length {α : Type} (l : List α) (p : α → Bool) (k : Nat) :
    k * (l.filter p).length = (l.map (fun a => if p a then k else 0)).sum := by
  induction l with
  | nil => rfl
  | cons a t ih =>
    by_cases h : p a <;>
      simp only [List.filter_cons, h, if_true, if_false, List.length_cons, List.map_cons,
        List.sum_cons, ite_true, ite_false, Bool.false_eq_true, ← ih] <;> ring

theorem jsDedup_go_mem (l acc : List Nat) (x : Nat) :
    x ∈ l.foldl (fun acc y => if y ∈ acc then acc else acc ++ [y]) acc ↔ x ∈ acc ∨ x ∈ l := by
  induction l generalizing acc with
  | nil => simp
  | cons a t ih =>
    simp only [List.foldl_cons, ih, List.mem_cons]
    by_cases h : a ∈ acc
    · simp only [h, if_true]
      constructor
      · tauto
      · rintro (hx | hx | hx) <;> try tauto
        exact Or.inl (hx ▸ h)
    · simp only [h, if_false, List.mem_append, List.mem_singleton]
      tauto

theorem jsDedup_mem (l : List Nat) (x : Nat) : x ∈ jsDedup l ↔ x ∈ l := by
  unfold jsDedup
  rw [jsDedup_go_mem]
  simp

theorem jsDedup_go_nodup (l acc : List Nat) (h : acc.Nodup) :
    (l.foldl (fun acc y => if y ∈ acc then acc else acc ++ [y]) acc).Nodup := by
  induction l generalizing acc with
  | nil => exact h
  | cons a t ih =>
    simp only [List.foldl_cons]
    by_cases ha : a ∈ acc
    · simp only [ha, if_true]; exact ih _ h
    · simp only [ha, if_false]
      refine ih _ ?_
      simp [List.nodup_append, h, ha]

theorem jsDedup_nodup (l : List Nat) : (jsDedup l).Nodup :=
  jsDedup_go_nodup l [] List.nodup_nil

theorem sortAsc_perm (l : List Nat) : List.Perm (sortAsc l) l := List.perm_insertionSort _ l

theorem sortAsc_mem (l : List Nat) (x : Nat) : x ∈ sortAsc l ↔ x ∈ l :=
  (sortAsc_perm l).mem_iff

theorem sortAsc_sorted_lt (l : List Nat) (h : l.Nodup) : (sortAsc l).Sorted (· < ·) := by
  have hs : (sortAsc l).Sorted (fun a b => a ≤ b) := List.sorted_insertionSort _ l
  have hn : (sortAsc l).Nodup := ((sortAsc_perm l).nodup_iff).mpr h
  exact (hs.and hn).imp (fun h => lt_of_le_of_ne h.1 h.2)

theorem levelShare_of_forall_lt (c prev : Nat) (levels : List Nat)
    (h : ∀ l ∈ levels, c < l) : levelShare c prev levels = 0 := by
  induction levels generalizing prev with
  | nil => rfl
  | cons l rest ih =>
    have hl : c < l := h l (List.mem_cons_self _ _)
    simp only [levelShare, if_neg (by omega : ¬ l ≤ c), ih _ (fun m hm => h m (List.mem_cons_of_mem _ hm))]

theorem levelShare_of_mem (c prev : Nat) (levels : List Nat)
    (hsort : levels.Sorted (· < ·)) (hmem : c ∈ levels)
    (hprev : ∀ l ∈ levels, prev ≤ l) : levelShare c prev levels = c - prev := by
  induction levels generalizing prev with
  | nil => cases hmem
  | cons l rest ih =>
    have hrest_gt : ∀ m ∈ rest, l < m := fun m hm => (List.pairwise_cons.mp hsort).1 m hm
    rcases List.mem_cons.mp hmem with rfl | hc
    · have hz : levelShare c c rest = 0 :=
        levelShare_of_forall_lt c c rest (fun m hm => hrest_gt m hm)
      simp [levelShare, hz]
    · have hlc : l < c := hrest_gt c hc
      have hpl : prev ≤ l := hprev l (List.mem_cons_self _ _)
      have := ih l (List.pairwise_cons.mp hsort).2 hc (fun m hm => le_of_lt (hrest_gt m hm))
      simp only [levelShare, if_pos (le_of_lt hlc), this]
      omega

theorem sidePotsLoop_amount_sum (contribs : List Contribution) (prev : Nat) (levels : List Nat) :
    potAmountSum (sidePotsLoop contribs prev levels) =
      (contribs.map (fun c => levelShare c.amount prev levels)).sum := by
  induction levels generalizing prev with
  | nil => simp [sidePotsLoop, potAmountSum, levelShare, sum_map_const]
  | cons l rest ih =>
    have hhead : (l - prev) * (contribs.filter (fun c => decide (l ≤ c.amount))).length =
        (contribs.map (fun c => if l ≤ c.amount then l - prev else 0)).sum := by
      rw [mul_filter_length]
      exact congrArg List.sum (List.map_congr_left (fun c _ => by by_cases h : l ≤ c.amount <;> simp [h]))
    simp only [sidePotsLoop]
    by_cases hz : 0 < (l - prev) * (contribs.filter (fun c => decide (l ≤ c.amount))).length
    · simp only [if_pos hz, potAmountSum, List.map_cons, List.sum_cons]
      have : potAmountSum (sidePotsLoop contribs l rest) =
          (contribs.map (fun c => levelShare c.amount l rest)).sum := ih l
      simp only [potAmountSum] at this
      rw [this, hhead]
      rw [← sum_map_add]
      exact congrArg List.sum (List.map_congr_left (fun c _ => by simp [levelShare]))
    · simp only [if_neg hz]
      have : potAmountSum (sidePotsLoop contribs l rest) =
          (contribs.map (fun c => levelShare c.amount l rest)).sum := ih l
      rw [this]
      have hz0 : (contribs.map (fun c => if l ≤ c.amount then l - prev else 0)).sum = 0 := by
        rw [← hhead]; omega
      have := sum_map_add contribs (fun c => if l ≤ c.amount then l - prev else 0)
        (fun c => levelShare c.amount l rest)
      have heq : (contribs.map (fun c => levelShare c.amount prev (l :: rest))).sum =
          (contribs.map (fun c => if l ≤ c.amount then l - prev else 0)).sum +
            (contribs.map (fun c => levelShare c.amount l rest)).sum := by
        rw [← this]
        exact congrArg List.sum (List.map_congr_left (fun c _ => by simp [levelShare]))
      rw [heq, hz0, Nat.zero_add]

theorem sum_map_filter_pos (ps : List Player) :
    ((ps.filter (fun p => decide (0 < p.totalCommitted))).map (fun p => p.totalCommitted)).sum =
      (ps.map (fun p => p.totalCommitted)).sum := by
  induction ps with
  | nil => rfl
  | cons p t ih =>
    by_cases h : 0 < p.totalCommitted
    · simp [List.filter_cons, h, ih]
    · have h0 : p.totalCommitted = 0 := by omega
      simp [List.filter_cons, h, ih, h0]

theorem computeSidePots_amount_sum (ps : List Player) :
    potAmountSum (computeSidePots ps) = committedSum ps := by
  unfold computeSidePots
  rw [sidePotsLoop_amount_sum]
  set contribs := (ps.filter (fun p => decide (0 < p.totalCommitted))).map
    (fun p => Contribution.mk p.seat p.totalCommitted (isEligibleForShowdown p)) with hcontribs
  set levels := sortAsc (jsDedup (contribs.map (fun c => c.amount))) with hlevels
  have hsorted : levels.Sorted (· < ·) :=
    sortAsc_sorted_lt _ (jsDedup_nodup _)
  have hshare : ∀ c ∈ contribs, levelShare c.amount 0 levels = c.amount := by
    intro c hc
    have hmem : c.amount ∈ levels := by
      rw [hlevels, sortAsc_mem, jsDedup_mem]
      exact List.mem_map_of_mem _ hc
    have := levelShare_of_mem c.amount 0 levels hsorted hmem (fun l _ => Nat.zero_le l)
    omega
  rw [List.map_congr_left hshare]
  have : contribs.map (fun c => c.amount) =
      (ps.filter (fun p => decide (0 < p.totalCommitted))).map (fun p => p.totalCommitted) := by
    rw [hcontribs, List.map_map]
    rfl
  rw [this, sum_map_filter_pos]
  rfl

theorem sum_map_snd_pair {α β : Type} (l : List α) (g : α → β) (k : Nat) :
    ((l.map (fun a => (g a, k))).map (fun e : β × Nat => e.2)).sum = l.length * k := by
  induction l with
  | nil => simp
  | cons a t ih =>
    simp only [List.map_cons, List.sum_cons, ih, List.length_cons]
    ring

theorem potCredits_snd_sum (pot : SidePot) (ws : List Nat) (d t : Nat)
    (h : potEffectiveWinners pot ws ≠ []) :
    ((potCredits pot ws d t).map (fun e => e.2)).sum = pot.amount := by
  unfold potCredits
  have hne : (potEffectiveWinners pot ws).isEmpty = false := by
    cases hew : potEffectiveWinners pot ws with
    | nil => exact absurd hew h
    | cons a l => rfl
  rw [if_neg (by simp [hne])]
  set ew := potEffectiveWinners pot ws with hew
  have hlen : 0 < ew.length := by
    cases hc : ew with
    | nil => exact absurd hc h
    | cons a l => simp
  rw [List.map_append, List.sum_append]
  have h1 : ((ew.map (fun s => (s, pot.amount / ew.length))).map
      (fun e : Nat × Nat => e.2)).sum = ew.length * (pot.amount / ew.length) :=
    sum_map_snd_pair ew (fun s => s) (pot.amount / ew.length)
  have h2 : (((List.range (pot.amount - pot.amount / ew.length * ew.length)).map
      (fun i => (remainderSeat ew (seatOrderFrom d t ew) i, 1))).map
        (fun e : Nat × Nat => e.2)).sum =
      (List.range (pot.amount - pot.amount / ew.length * ew.length)).length * 1 :=
    sum_map_snd_pair _ (remainderSeat ew (seatOrderFrom d t ew)) 1
  rw [h1, h2]
  have hle : pot.amount / ew.length * ew.length ≤ pot.amount := Nat.div_mul_le_self _ _
  simp only [List.length_range, Nat.mul_one]
  rw [Nat.mul_comm ew.length (pot.amount / ew.length)]
  omega

theorem distributePotsTotal_eq (pots : List SidePot) (pw : List (List Nat)) (d t : Nat)
    (h : ∀ pr ∈ pots.enum, potEffectiveWinners pr.2 (pw.getD pr.1 []) ≠ []) :
    distributePotsTotal pots pw d t = potAmountSum pots := by
  unfold distributePotsTotal distributePotsCredits
  have step : ∀ L : List (List (Nat × Nat)),
      ((L.flatten).map (fun e : Nat × Nat => e.2)).sum =
        (L.map (fun l => (l.map (fun e : Nat × Nat => e.2)).sum)).sum := by
    intro L
    rw [List.map_flatten, List.sum_flatten, List.map_map]
    rfl
  rw [step, List.map_map]
  have h1 : pots.enum.map ((fun l => (l.map (fun e : Nat × Nat => e.2)).sum) ∘
      (fun pr : Nat × SidePot => potCredits pr.2 (pw.getD pr.1 []) d t)) =
      pots.enum.map (fun pr => pr.2.amount) := by
    apply List.map_congr_left
    intro pr hpr
    exact potCredits_snd_sum pr.2 (pw.getD pr.1 []) d t (h pr hpr)
  rw [h1]
  have h2 : pots.enum.map (fun pr => pr.2.amount) = pots.map (fun pot => pot.amount) := by
    rw [show (fun pr : Nat × SidePot => pr.2.amount) =
        ((fun pot : SidePot => pot.amount) ∘ Prod.snd) from rfl, ← List.map_map,
      List.enum_map_snd]
  rw [h2]
  rfl

theorem trimChars_eq_nil (l : List Char) (h : ∀ c ∈ l, isJsWhitespace c = true) :
    trimChars l = [] := by
  unfold trimChars
  have h1 : l.dropWhile isJsWhitespace = [] := by
    rw [List.dropWhile_eq_nil_iff]
    exact h
  simp [h1]

/-! ## Frame lemmas for the player-action pipeline -/

theorem map_set_cancel {α β : Type} (ps : List α) (i : Nat) (p' : α) (f : α → β)
    (h : ∀ hh : i < ps.length, f p' = f (ps.get ⟨i, hh⟩)) :
    (ps.set i p').map f = ps.map f := by
  induction ps generalizing i with
  | nil => rfl
  | cons a t ih =>
    cases i with
    | zero =>
      have := h (by simp)
      simp only [List.get] at this
      simp [List.set_cons_zero, this]
    | succ n =>
      simp only [List.set_cons_succ, List.map_cons]
      rw [ih n (fun hh => by
        have := h (Nat.succ_lt_succ hh)
        simpa [List.get] using this)]

theorem map_map_cancel {α β : Type} (ps : List α) (g : α → α) (f : α → β)
    (h : ∀ p, f (g p) = f p) : (ps.map g).map f = ps.map f := by
  rw [List.map_map]
  exact List.map_congr_left (fun p _ => h p)

theorem chipSum_map_cancel (ps : List Player) (g : Player → Player)
    (h : ∀ p, (g p).stack + (g p).totalCommitted = p.stack + p.totalCommitted) :
    chipSum (ps.map g) = chipSum ps := by
  unfold chipSum
  rw [List.map_map]
  exact congrArg List.sum (List.map_congr_left (fun p _ => h p))

theorem chipSum_set_cancel (ps : List Player) (i : Nat) (p' : Player)
    (h : ∀ hh : i < ps.length,
      p'.stack + p'.totalCommitted = (ps.get ⟨i, hh⟩).stack + (ps.get ⟨i, hh⟩).totalCommitted) :
    chipSum (ps.set i p') = chipSum ps := by
  unfold chipSum
  exact congrArg List.sum
    (map_set_cancel ps i p' (fun p => p.stack + p.totalCommitted) h)

theorem payPlayer_chips (p : Player) (n : Nat) :
    (payPlayer p n).stack + (payPlayer p n).totalCommitted = p.stack + p.totalCommitted := by
  unfold payPlayer
  dsimp only
  have := Nat.min_le_right n p.stack
  omega

theorem payPlayer_key (p : Player) (n : Nat) : playerKey (payPlayer p n) = playerKey p := rfl

theorem moveToNextStreet_frame (t : GameState) :
    (moveToNextStreet t).rollbackStack = t.rollbackStack ∧
    (moveToNextStreet t).players.map playerKey = t.players.map playerKey ∧
    chipSum (moveToNextStreet t).players = chipSum t.players ∧
    (moveToNextStreet t).lastError = none := by
  unfold moveToNextStreet
  dsimp only
  split
  · exact ⟨rfl, map_map_cancel _ _ _ (fun p => rfl),
      chipSum_map_cancel _ _ (fun p => rfl), rfl⟩
  · split
    · exact ⟨rfl, map_map_cancel _ _ _ (fun p => rfl),
        chipSum_map_cancel _ _ (fun p => rfl), rfl⟩
    · split
      · exact ⟨rfl, map_map_cancel _ _ _ (fun p => rfl),
          chipSum_map_cancel _ _ (fun p => rfl), rfl⟩
      · exact ⟨rfl, map_map_cancel _ _ _ (fun p => rfl),
          chipSum_map_cancel _ _ (fun p => rfl), rfl⟩

theorem ite_mtNS_frame (c : Prop) [Decidable c] (t : GameState) (h : t.lastError = none) :
    ((if c then moveToNextStreet t else t).rollbackStack = t.rollbackStack) ∧
    ((if c then moveToNextStreet t else t).players.map playerKey = t.players.map playerKey) ∧
    (chipSum (if c then moveToNextStreet t else t).players = chipSum t.players) ∧
    ((if c then moveToNextStreet t else t).lastError = none) := by
  by_cases hc : c
  · simp only [if_pos hc]
    exact ⟨(moveToNextStreet_frame t).1, (moveToNextStreet_frame t).2.1,
      (moveToNextStreet_frame t).2.2.1, (moveToNextStreet_frame t).2.2.2⟩
  · simp [if_neg hc, h]

theorem finishPlayerAction_frame (s : GameState) (seat : Nat) (ps : List Player)
    (cb : Nat) (r : Bool)
    (hkey : ps.map playerKey = s.players.map playerKey)
    (hchip : chipSum ps = chipSum s.players) :
    (finishPlayerAction s seat ps cb r).rollbackStack = s.rollbackStack ∧
    (finishPlayerAction s seat ps cb r).players.map playerKey = s.players.map playerKey ∧
    chipSum (finishPlayerAction s seat ps cb r).players = chipSum s.players ∧
    (finishPlayerAction s seat ps cb r).lastError = none := by
  unfold finishPlayerAction
  dsimp only
  split
  · exact ⟨rfl,
      (map_map_cancel ps (fun p => { p with acted := true }) playerKey (fun p => rfl)).trans hkey,
      (chipSum_map_cancel ps (fun p => { p with acted := true }) (fun p => rfl)).trans hchip,
      rfl⟩
  · have hkey2 : (if r then ps.map (fun p =>
        if p.status == .active && p.seat != seat then { p with acted := false } else p)
        else ps).map playerKey = s.players.map playerKey := by
      cases r with
      | false => simpa using hkey
      | true =>
        simp only [if_pos]
        refine ((map_map_cancel ps (fun p =>
          if p.status == .active && p.seat != seat then { p with acted := false } else p)
          playerKey (fun p => ?_)).trans hkey)
        by_cases h : p.status == .active && p.seat != seat <;> simp [h, playerKey]
    have hchip2 : chipSum (if r then ps.map (fun p =>
        if p.status == .active && p.seat != seat then { p with acted := false } else p)
        else ps) = chipSum s.players := by
      cases r with
      | false => simpa using hchip
      | true =>
        simp only [if_pos]
        refine ((chipSum_map_cancel ps (fun p =>
          if p.status == .active && p.seat != seat then { p with acted := false } else p)
          (fun p => ?_)).trans hchip)
        by_cases h : p.status == .active && p.seat != seat <;> simp [h]
    exact ⟨(ite_mtNS_frame _ _ rfl).1,
      ((ite_mtNS_frame _ _ rfl).2.1).trans hkey2,
      ((ite_mtNS_frame _ _ rfl).2.2.1).trans hchip2,
      (ite_mtNS_frame _ _ rfl).2.2.2⟩

theorem applyPlayerAction_frame (s : GameState) (seat : Nat) (a : PlayerAction) :
    (applyPlayerAction s seat a).rollbackStack = s.rollbackStack ∧
    (applyPlayerAction s seat a).players.map playerKey = s.players.map playerKey ∧
    chipSum (applyPlayerAction s seat a).players = chipSum s.players := by
  unfold applyPlayerAction
  cases hget : s.players.get? seat with
  | none => exact ⟨rfl, rfl, rfl⟩
  | some actor =>
    obtain ⟨hlt, hgeteq⟩ := List.get?_eq_some.mp hget
    dsimp only
    by_cases h1 : actor.seat ≠ seat
    · rw [if_pos h1]; exact ⟨rfl, rfl, rfl⟩
    rw [if_neg h1]
    by_cases h2 : s.phase ≠ .hand
    · rw [if_pos h2]; exact ⟨rfl, rfl, rfl⟩
    rw [if_neg h2]
    by_cases h3 : seat ≠ s.actionSeat
    · rw [if_pos h3]; exact ⟨rfl, rfl, rfl⟩
    rw [if_neg h3]
    by_cases h4 : actor.status ≠ .active
    · rw [if_pos h4]; exact ⟨rfl, rfl, rfl⟩
    rw [if_neg h4]
    have keyset : ∀ p' : Player, playerKey p' = playerKey actor →
        (s.players.set seat p').map playerKey = s.players.map playerKey := by
      intro p' hp'
      refine map_set_cancel _ _ _ playerKey (fun hh => ?_)
      have hg : s.players.get ⟨seat, hh⟩ = actor := hgeteq
      rw [hg, hp']
    have chipset : ∀ p' : Player,
        p'.stack + p'.totalCommitted = actor.stack + actor.totalCommitted →
        chipSum (s.players.set seat p') = chipSum s.players := by
      intro p' hp'
      refine chipSum_set_cancel _ _ _ (fun hh => ?_)
      have hg : s.players.get ⟨seat, hh⟩ = actor := hgeteq
      rw [hg, hp']
    cases a with
    | fold =>
      rw [if_neg (by simp)]
      have F := finishPlayerAction_frame s seat
        (s.players.set seat { actor with status := .folded, acted := true })
        s.currentBet false (keyset _ rfl) (chipset _ rfl)
      exact ⟨F.1, F.2.1, F.2.2.1⟩
    | check =>
      by_cases hc : PlayerAction.check = PlayerAction.check ∧ toCallFor actor s ≠ 0
      · rw [if_pos hc]; exact ⟨rfl, rfl, rfl⟩
      · rw [if_neg hc]
        have F := finishPlayerAction_frame s seat
          (s.players.set seat { actor with acted := true })
          s.currentBet false (keyset _ rfl) (chipset _ rfl)
        exact ⟨F.1, F.2.1, F.2.2.1⟩
    | call =>
      rw [if_neg (by simp)]
      have F := finishPlayerAction_frame s seat
        (s.players.set seat { payPlayer actor (toCallFor actor s) with acted := true })
        s.currentBet false (keyset _ rfl)
        (chipset _ (payPlayer_chips actor (toCallFor actor s)))
      exact ⟨F.1, F.2.1, F.2.2.1⟩
    | allin =>
      rw [if_neg (by simp)]
      have F := finishPlayerAction_frame s seat
        (s.players.set seat { payPlayer actor actor.stack with acted := true })
        (if s.currentBet < actor.streetBet + actor.stack then actor.streetBet + actor.stack
         else s.currentBet)
        (decide (s.currentBet < actor.streetBet + actor.stack))
        (keyset _ rfl) (chipset _ (payPlayer_chips actor actor.stack))
      exact ⟨F.1, F.2.1, F.2.2.1⟩
    | betTo bt =>
      rw [if_neg (by simp)]
      dsimp only
      by_cases hr1 : clampToNat bt 0 1000000000 ≤ s.currentBet ∧
          clampToNat (Int.ofNat (clampToNat bt 0 1000000000)) 0 (actor.streetBet + actor.stack) ≤
            s.currentBet
      · rw [if_pos hr1]; exact ⟨rfl, rfl, rfl⟩
      rw [if_neg hr1]
      by_cases hr2 : clampToNat (Int.ofNat (clampToNat bt 0 1000000000)) 0
          (actor.streetBet + actor.stack) ≤ actor.streetBet
      · rw [if_pos hr2]; exact ⟨rfl, rfl, rfl⟩
      rw [if_neg hr2]
      have F := finishPlayerAction_frame s seat
        (s.players.set seat
          { payPlayer actor
              (clampToNat (Int.ofNat (clampToNat bt 0 1000000000)) 0
                (actor.streetBet + actor.stack) - actor.streetBet) with acted := true })
        (if s.currentBet <
            ({ payPlayer actor
                (clampToNat (Int.ofNat (clampToNat bt 0 1000000000)) 0
                  (actor.streetBet + actor.stack) - actor.streetBet) with
                acted := true } : Player).streetBet
         then ({ payPlayer actor
                (clampToNat (Int.ofNat (clampToNat bt 0 1000000000)) 0
                  (actor.streetBet + actor.stack) - actor.streetBet) with
                acted := true } : Player).streetBet
         else s.currentBet)
        (decide (s.currentBet <
            ({ payPlayer actor
                (clampToNat (Int.ofNat (clampToNat bt 0 1000000000)) 0
                  (actor.streetBet + actor.stack) - actor.streetBet) with
                acted := true } : Player).streetBet))
        (keyset _ rfl) (chipset _ (payPlayer_chips actor _))
      exact ⟨F.1, F.2.1, F.2.2.1⟩

theorem applyPlayerAction_guard_error (s : GameState) (seat : Nat) (act : PlayerAction)
    (h : ¬ pushesRollback s seat) :
    ∃ e, applyPlayerAction s seat act = { s with lastError := some e } := by
  unfold pushesRollback at h
  unfold applyPlayerAction
  cases hget : s.players.get? seat with
  | none => exact ⟨_, rfl⟩
  | some actor =>
    simp only [hget] at h
    dsimp only
    by_cases h1 : actor.seat ≠ seat
    · rw [if_pos h1]; exact ⟨_, rfl⟩
    rw [if_neg h1]
    by_cases h2 : s.phase ≠ Phase.hand
    · rw [if_pos h2]; exact ⟨_, rfl⟩
    rw [if_neg h2]
    by_cases h3 : seat ≠ s.actionSeat
    · rw [if_pos h3]; exact ⟨_, rfl⟩
    rw [if_neg h3]
    by_cases h4 : actor.status ≠ PlayerStatus.active
    · rw [if_pos h4]; exact ⟨_, rfl⟩
    exact absurd ⟨not_not.mp h2, not_not.mp h3, not_not.mp h1, not_not.mp h4⟩ h

theorem reducer_PLAYER_ACT_nopush (s : GameState) (seat : Nat) (act : PlayerAction)
    (h : ¬ pushesRollback s seat) :
    reducer s (Action.PLAYER_ACT seat act) =
      applyPlayerAction { s with lastError := none } seat act := by
  show reducerGo { s with lastError := none } (Action.PLAYER_ACT seat act) = _
  unfold reducerGo
  dsimp only
  by_cases h1 : s.phase ≠ Phase.hand
  · rw [if_pos h1]
  rw [if_neg h1]
  by_cases h2 : seat ≠ s.actionSeat
  · rw [if_pos h2]
  rw [if_neg h2]
  cases hget : s.players.get? seat with
  | none => rfl
  | some actor =>
    dsimp only
    by_cases h3 : actor.seat ≠ seat ∨ actor.status ≠ PlayerStatus.active
    · rw [if_pos h3]
    · refine absurd ?_ h
      refine ⟨not_not.mp h1, not_not.mp h2, ?_⟩
      simp only [hget]
      push_neg at h3
      exact ⟨not_not.mp (fun hne => hne h3.1), h3.2⟩

theorem reducer_PLAYER_ACT_push (s : GameState) (seat : Nat) (act : PlayerAction)
    (hp : pushesRollback s seat) :
    reducer s (Action.PLAYER_ACT seat act) =
      applyPlayerAction
        { s with lastError := none, rollbackStack := pushedRollbackStack s } seat act := by
  obtain ⟨hphase, hseat, hmatch⟩ := hp
  show reducerGo { s with lastError := none } (Action.PLAYER_ACT seat act) = _
  unfold reducerGo
  dsimp only
  rw [if_neg (by simp [hphase]), if_neg (by simp [hseat])]
  cases hget : s.players.get? seat with
  | none => simp only [hget] at hmatch
  | some actor =>
    simp only [hget] at hmatch
    dsimp only
    rw [if_neg (by
      push_neg
      exact ⟨by simp [hmatch.1], by simp [hmatch.2]⟩)]
    rfl

theorem pushedRollbackStack_getLast (s : GameState) :
    (pushedRollbackStack s).getLast? = some (makeRollbackPoint s) := by
  unfold pushedRollbackStack
  dsimp only
  split
  · rename_i hlen
    rw [List.drop_append_of_le_length (by
      simp only [List.length_append, List.length_cons, List.length_nil] at hlen ⊢
      omega)]
    exact List.getLast?_concat _
  · exact List.getLast?_concat _

theorem lastBySeat_append (l : List RollbackPlayer) (p : RollbackPlayer) (s : Nat) :
    lastBySeat (l ++ [p]) s = if p.seat = s then some p else lastBySeat l s := by
  unfold lastBySeat
  rw [List.foldl_append]
  rfl

theorem lastBySeat_of_indexed (rps : List RollbackPlayer) (h : rpSeatsIndexed rps)
    (i : Nat) (hi : i < rps.length) :
    lastBySeat rps i = some (rps.get ⟨i, hi⟩) := by
  induction rps using List.reverseRecOn with
  | nil => simp at hi
  | append_singleton l p ih =>
    have hlp : p.seat = l.length := by
      have hlt : l.length < (l ++ [p]).length := by simp
      have := h l.length hlt
      rw [List.get_eq_getElem] at this
      rw [List.getElem_append_right (Nat.le_refl _)] at this
      simpa using this
    rw [lastBySeat_append]
    have hi' : i < l.length + 1 := by simpa using hi
    by_cases hcase : i = l.length
    · subst hcase
      rw [if_pos hlp]
      congr 1
      rw [List.get_eq_getElem, List.getElem_append_right (Nat.le_refl _)]
      simp
    · have hil : i < l.length := by omega
      rw [if_neg (by omega)]
      have hlidx : rpSeatsIndexed l := by
        intro j hj
        have hj2 : j < (l ++ [p]).length := by simp; omega
        have := h j hj2
        rw [List.get_eq_getElem, List.getElem_append_left hj] at this
        rw [List.get_eq_getElem]
        exact this
      rw [ih hlidx hil]
      congr 1
      rw [List.get_eq_getElem, List.get_eq_getElem, List.getElem_append_left hil]

theorem map_eq_pointwise {α β : Type} (f : α → β) (qs ps : List α)
    (h : qs.map f = ps.map f) (i : Nat) (h1 : i < qs.length) (h2 : i < ps.length) :
    f (qs.get ⟨i, h1⟩) = f (ps.get ⟨i, h2⟩) := by
  have h' := congrArg (fun l => l.get? i) h
  simp only [List.get?_map, List.get?_eq_get h1, List.get?_eq_get h2, Option.map_some'] at h'
  exact Option.some.inj h'

theorem restore_capture (p q : Player) (hseat : q.seat = p.seat) (hname : q.name = p.name) :
    restorePlayer q (capturePlayer p) = p := by
  cases p
  cases q
  simp_all [restorePlayer, capturePlayer]

theorem get_map_eq {α β : Type} (f : α → β) (l : List α) (i : Nat)
    (h : i < (l.map f).length) (h' : i < l.length) :
    (l.map f).get ⟨i, h⟩ = f (l.get ⟨i, h'⟩) := by
  rw [List.get_eq_getElem, List.get_eq_getElem, List.getElem_map]

theorem rollbackOnce_restore (t : GameState) (pt : RollbackPoint)
    (hlast : t.rollbackStack.getLast? = some pt) :
    rollbackOnce t = { t with
      phase := pt.phase, street := pt.street, currentBet := pt.currentBet,
      actionSeat := pt.actionSeat, dealerSeat := pt.dealerSeat,
      boardCardsText := pt.boardCardsText, potWinners := pt.potWinners,
      players := t.players.map (fun p =>
        match lastBySeat pt.players p.seat with
        | none => p
        | some prev => restorePlayer p prev),
      rollbackStack := t.rollbackStack.dropLast, lastError := none } := by
  unfold rollbackOnce
  rw [hlast]

/-! ## Chip-conservation machinery -/

theorem mem_of_getLast? {α : Type} {l : List α} {a : α} (h : l.getLast? = some a) : a ∈ l := by
  induction l using List.reverseRecOn with
  | nil => cases h
  | append_singleton t x _ =>
    rw [List.getLast?_concat] at h
    rw [Option.some.injEq] at h
    subst h
    simp

theorem length_eq_of_key_eq (ps qs : List Player)
    (hkey : qs.map playerKey = ps.map playerKey) : qs.length = ps.length := by
  have := congrArg List.length hkey
  simpa using this

theorem seatsIndexed_of_key_eq (ps qs : List Player)
    (hkey : qs.map playerKey = ps.map playerKey) (h : seatsIndexed ps) : seatsIndexed qs := by
  intro i hi
  have hi' : i < ps.length := length_eq_of_key_eq ps qs hkey ▸ hi
  have hp := map_eq_pointwise playerKey qs ps hkey i hi hi'
  exact (congrArg Prod.fst hp).trans (h i hi')

theorem capture_length (ps : List Player) : (ps.map capturePlayer).length = ps.length := by
  simp

theorem capture_rpSeatsIndexed (ps : List Player) (h : seatsIndexed ps) :
    rpSeatsIndexed (ps.map capturePlayer) := by
  intro j hj
  have hj' : j < ps.length := by simpa using hj
  rw [get_map_eq capturePlayer ps j hj hj']
  exact h j hj'

theorem capture_rpChipSum (ps : List Player) : rpChipSum (ps.map capturePlayer) = chipSum ps := by
  unfold rpChipSum chipSum
  rw [List.map_map]
  rfl

theorem postForcedBet_key (p : Player) (n : Nat) :
    playerKey (postForcedBet p n) = playerKey p := by
  unfold postForcedBet
  split <;> rfl

theorem postForcedBet_chips (p : Player) (n : Nat) :
    (postForcedBet p n).stack + (postForcedBet p n).totalCommitted =
      p.stack + p.totalCommitted := by
  unfold postForcedBet
  split
  · rfl
  · dsimp only
    have := Nat.min_le_right n p.stack
    omega

theorem pushedRollbackStack_mem (S : Nat) (s : GameState) (h : stateInv S s) :
    ∀ pt ∈ pushedRollbackStack s,
      pt.players.length = s.players.length ∧ rpSeatsIndexed pt.players ∧
        rpChipSum pt.players = S := by
  obtain ⟨hidx, hchip, hrb⟩ := h
  have hnew : (makeRollbackPoint s).players.length = s.players.length ∧
      rpSeatsIndexed (makeRollbackPoint s).players ∧
      rpChipSum (makeRollbackPoint s).players = S := by
    refine ⟨capture_length s.players, capture_rpSeatsIndexed s.players hidx, ?_⟩
    show rpChipSum (s.players.map capturePlayer) = S
    rw [capture_rpChipSum]
    exact hchip
  intro pt hpt
  have hpt' : pt ∈ s.rollbackStack ++ [makeRollbackPoint s] := by
    unfold pushedRollbackStack at hpt
    dsimp only at hpt
    rcases Decidable.em
        (50 < (s.rollbackStack ++ [makeRollbackPoint s]).length) with hc | hc
    · rw [if_pos hc] at hpt
      exact List.drop_subset _ _ hpt
    · rwa [if_neg hc] at hpt
  rcases List.mem_append.mp hpt' with hold | hnewm
  · exact hrb pt hold
  · rw [List.mem_singleton] at hnewm
    subst hnewm
    exact hnew

theorem restore_get (cur : List Player) (rps : List RollbackPlayer)
    (hcuridx : seatsIndexed cur) (hrpidx : rpSeatsIndexed rps)
    (i : Nat)
    (h1 : i < (cur.map (fun p => match lastBySeat rps p.seat with
      | none => p
      | some prev => restorePlayer p prev)).length)
    (h2 : i < cur.length) (h3 : i < rps.length) :
    (cur.map (fun p => match lastBySeat rps p.seat with
      | none => p
      | some prev => restorePlayer p prev)).get ⟨i, h1⟩ =
      restorePlayer (cur.get ⟨i, h2⟩) (rps.get ⟨i, h3⟩) := by
  rw [get_map_eq _ cur i h1 h2, hcuridx i h2, lastBySeat_of_indexed rps hrpidx i h3]

theorem restore_seatsIndexed (cur : List Player) (rps : List RollbackPlayer)
    (hcuridx : seatsIndexed cur) (hrpidx : rpSeatsIndexed rps) (hlen : rps.length = cur.length) :
    seatsIndexed (cur.map (fun p => match lastBySeat rps p.seat with
      | none => p
      | some prev => restorePlayer p prev)) := by
  intro i hi
  have h2 : i < cur.length := by simpa using hi
  have h3 : i < rps.length := by omega
  rw [restore_get cur rps hcuridx hrpidx i hi h2 h3]
  exact hcuridx i h2

theorem restore_chipSum (cur : List Player) (rps : List RollbackPlayer)
    (hcuridx : seatsIndexed cur) (hrpidx : rpSeatsIndexed rps) (hlen : rps.length = cur.length) :
    chipSum (cur.map (fun p => match lastBySeat rps p.seat with
      | none => p
      | some prev => restorePlayer p prev)) = rpChipSum rps := by
  unfold chipSum rpChipSum
  apply congrArg List.sum
  apply List.ext_get
  · simp [hlen]
  · intro i hA hB
    have h2 : i < cur.length := by simpa using hA
    have h3 : i < rps.length := by simpa using hB
    have hmap : i < (cur.map (fun p => match lastBySeat rps p.seat with
        | none => p
        | some prev => restorePlayer p prev)).length := by simpa using h2
    rw [get_map_eq _ _ i hA hmap, get_map_eq _ rps i hB h3,
      restore_get cur rps hcuridx hrpidx i hmap h2 h3]
    rfl

theorem stateInv_clear (S : Nat) (s : GameState) (h : stateInv S s) :
    stateInv S { s with lastError := none } := h

theorem reducer_PLAYER_ACT_inv (S : Nat) (s : GameState) (seat : Nat) (act : PlayerAction)
    (h : stateInv S s) : stateInv S (reducer s (Action.PLAYER_ACT seat act)) := by
  by_cases hp : pushesRollback s seat
  · rw [reducer_PLAYER_ACT_push s seat act hp]
    obtain ⟨f1, f2, f3⟩ := applyPlayerAction_frame
      { s with lastError := none, rollbackStack := pushedRollbackStack s } seat act
    have f2' : (applyPlayerAction
        { s with lastError := none, rollbackStack := pushedRollbackStack s } seat act).players.map
          playerKey = s.players.map playerKey := f2
    refine ⟨seatsIndexed_of_key_eq s.players _ f2' h.1, ?_, ?_⟩
    · exact f3.trans h.2.1
    · intro pt hpt
      have hpt' : pt ∈ pushedRollbackStack s := by
        have f1' : (applyPlayerAction
            { s with lastError := none, rollbackStack := pushedRollbackStack s } seat
              act).rollbackStack = pushedRollbackStack s := f1
        rwa [f1'] at hpt
      obtain ⟨l, i, c⟩ := pushedRollbackStack_mem S s h pt hpt'
      exact ⟨l.trans (length_eq_of_key_eq s.players _ f2').symm, i, c⟩
  · rw [reducer_PLAYER_ACT_nopush s seat act hp]
    obtain ⟨f1, f2, f3⟩ := applyPlayerAction_frame { s with lastError := none } seat act
    have f2' : (applyPlayerAction { s with lastError := none } seat act).players.map playerKey =
        s.players.map playerKey := f2
    refine ⟨seatsIndexed_of_key_eq s.players _ f2' h.1, ?_, ?_⟩
    · exact f3.trans h.2.1
    · intro pt hpt
      have hpt' : pt ∈ s.rollbackStack := by
        have f1' : (applyPlayerAction { s with lastError := none } seat act).rollbackStack =
            s.rollbackStack := f1
        rwa [f1'] at hpt
      obtain ⟨l, i, c⟩ := h.2.2 pt hpt'
      exact ⟨l.trans (length_eq_of_key_eq s.players _ f2').symm, i, c⟩

theorem rollbackOnce_inv (S : Nat) (s : GameState) (h : stateInv S s) :
    stateInv S (rollbackOnce s) := by
  cases hlast : s.rollbackStack.getLast? with
  | none =>
    unfold rollbackOnce
    rw [hlast]
    exact h
  | some pt =>
    rw [rollbackOnce_restore _ _ hlast]
    have hptmem : pt ∈ s.rollbackStack := mem_of_getLast? hlast
    obtain ⟨hlen, hrpidx, hrpchip⟩ := h.2.2 pt hptmem
    refine ⟨?_, ?_, ?_⟩
    · exact restore_seatsIndexed s.players pt.players h.1 hrpidx hlen
    · exact (restore_chipSum s.players pt.players h.1 hrpidx hlen).trans hrpchip
    · intro q hq
      have hq' : q ∈ s.rollbackStack := List.dropLast_subset _ hq
      obtain ⟨l, i, c⟩ := h.2.2 q hq'
      refine ⟨?_, i, c⟩
      rw [l]
      simp

theorem reducer_ROLLBACK_inv (S : Nat) (s : GameState) (h : stateInv S s) :
    stateInv S (reducer s Action.ROLLBACK) :=
  rollbackOnce_inv S { s with lastError := none } (stateInv_clear S s h)

theorem moveToNextStreet_inv (S : Nat) (s : GameState) (h : stateInv S s) :
    stateInv S (moveToNextStreet s) := by
  obtain ⟨f1, f2, f3, -⟩ := moveToNextStreet_frame s
  refine ⟨seatsIndexed_of_key_eq s.players _ f2 h.1, f3.trans h.2.1, ?_⟩
  intro pt hpt
  have hpt' : pt ∈ s.rollbackStack := by rwa [f1] at hpt
  obtain ⟨l, i, c⟩ := h.2.2 pt hpt'
  exact ⟨l.trans (length_eq_of_key_eq s.players _ f2).symm, i, c⟩

theorem reducer_NEXT_STREET_inv (S : Nat) (s : GameState) (h : stateInv S s) :
    stateInv S (reducer s Action.NEXT_STREET) :=
  moveToNextStreet_inv S { s with lastError := none } (stateInv_clear S s h)

theorem reducer_SET_BOARD_inv (S : Nat) (s : GameState) (text : String) (h : stateInv S s) :
    stateInv S (reducer s (Action.SET_BOARD text)) := h

theorem reducer_SET_HOLE_inv (S : Nat) (s : GameState) (seat : Nat) (text : String)
    (h : stateInv S s) : stateInv S (reducer s (Action.SET_HOLE seat text)) := by
  have hkey : (s.players.map (fun p =>
      if p.seat = seat then { p with holeCardsText := text } else p)).map playerKey =
      s.players.map playerKey :=
    map_map_cancel _ _ _ (fun p => by by_cases hc : p.seat = seat <;> simp [hc, playerKey])
  have hchip : chipSum (s.players.map (fun p =>
      if p.seat = seat then { p with holeCardsText := text } else p)) = chipSum s.players :=
    chipSum_map_cancel _ _ (fun p => by by_cases hc : p.seat = seat <;> simp [hc])
  refine ⟨seatsIndexed_of_key_eq s.players _ hkey h.1, hchip.trans h.2.1, ?_⟩
  intro pt hpt
  obtain ⟨l, i, c⟩ := h.2.2 pt hpt
  exact ⟨l.trans (length_eq_of_key_eq s.players _ hkey).symm, i, c⟩

theorem reducer_SET_POT_WINNERS_inv (S : Nat) (s : GameState) (potIndex : Int)
    (seats : List Nat) (h : stateInv S s) :
    stateInv S (reducer s (Action.SET_POT_WINNERS potIndex seats)) := h

theorem reducer_SET_POT_WINNERS_ALL_inv (S : Nat) (s : GameState) (pw : List (List Nat))
    (h : stateInv S s) : stateInv S (reducer s (Action.SET_POT_WINNERS_ALL pw)) := h

theorem cancelHand_inv (S : Nat) (s : GameState) (h : stateInv S s) :
    stateInv S (cancelHand s) := by
  unfold cancelHand
  split
  · exact h
  · refine ⟨?_, ?_, ?_⟩
    · refine seatsIndexed_of_key_eq s.players _ ?_ h.1
      exact map_map_cancel _ _ _ (fun p => rfl)
    · refine Eq.trans ?_ h.2.1
      exact chipSum_map_cancel _ _ (fun p => by dsimp only; omega)
    · intro pt hpt
      simp at hpt

theorem reducer_CANCEL_HAND_inv (S : Nat) (s : GameState) (h : stateInv S s) :
    stateInv S (reducer s Action.CANCEL_HAND) :=
  cancelHand_inv S { s with lastError := none } (stateInv_clear S s h)

theorem sum_range_single (n m k : Nat) (h : m < n) :
    ((List.range n).map (fun st => if m = st then k else 0)).sum = k := by
  induction n with
  | zero => omega
  | succ n ih =>
    rw [List.range_succ, List.map_append, List.sum_append]
    by_cases hm : m = n
    · subst hm
      have hz : ((List.range m).map (fun st => if m = st then k else 0)).sum = 0 := by
        apply List.sum_eq_zero
        intro x hx
        rcases List.mem_map.mp hx with ⟨st, hst, rfl⟩
        have : st < m := List.mem_range.mp hst
        simp [show m ≠ st by omega]
      simp [hz]
    · have hm' : m < n := by omega
      rw [ih hm']
      simp [hm]

theorem sum_range_filter_sum (credits : List (Nat × Nat)) (n : Nat)
    (h : ∀ e ∈ credits, e.1 < n) :
    ((List.range n).map (fun st =>
      ((credits.filter (fun e => e.1 == st)).map (fun e => e.2)).sum)).sum =
      (credits.map (fun e => e.2)).sum := by
  induction credits with
  | nil =>
    simp
  | cons e cs ih =>
    have hstep : ∀ st : Nat,
        (((e :: cs).filter (fun x => x.1 == st)).map (fun x => x.2)).sum =
          (if e.1 = st then e.2 else 0) +
            ((cs.filter (fun x => x.1 == st)).map (fun x => x.2)).sum := by
      intro st
      by_cases hc : e.1 = st <;> simp [List.filter_cons, hc]
    rw [List.map_congr_left (fun st _ => hstep st)]
    rw [sum_map_add (List.range n) (fun st => if e.1 = st then e.2 else 0)
      (fun st => ((cs.filter (fun x => x.1 == st)).map (fun x => x.2)).sum)]
    rw [sum_range_single n e.1 e.2 (h e (List.mem_cons_self _ _)),
      ih (fun x hx => h x (List.mem_cons_of_mem _ hx))]
    simp

theorem mem_seatOrderFrom (d t : Nat) (seats : List Nat) :
    ∀ x ∈ seatOrderFrom d t seats, x ∈ seats := by
  intro x hx
  unfold seatOrderFrom at hx
  have := List.mem_filter.mp hx
  simpa using this.2

theorem getD_mem {l : List Nat} (i : Nat) (hi : i < l.length) : l.getD i 0 ∈ l := by
  rw [List.getD_eq_getElem?_getD, List.getElem?_eq_getElem hi]
  exact List.getElem_mem _

theorem remainderSeat_mem (ew order : List Nat) (hew : ew ≠ [])
    (horder : ∀ x ∈ order, x ∈ ew) (i : Nat) :
    remainderSeat ew order i ∈ ew := by
  unfold remainderSeat
  have hewlen : 0 < ew.length := List.length_pos.mpr hew
  split
  · exact getD_mem _ (Nat.mod_lt _ hewlen)
  · rename_i hne
    have hol : order ≠ [] := by
      intro hc
      rw [hc] at hne
      simp at hne
    exact horder _ (getD_mem _ (Nat.mod_lt _ (List.length_pos.mpr hol)))

theorem potCredits_fst_mem (pot : SidePot) (ws : List Nat) (d t : Nat) :
    ∀ e ∈ potCredits pot ws d t, e.1 ∈ potEffectiveWinners pot ws := by
  intro e he
  unfold potCredits at he
  by_cases hemp : (potEffectiveWinners pot ws).isEmpty
  · rw [if_pos hemp] at he
    cases he
  · rw [if_neg hemp] at he
    have hew : potEffectiveWinners pot ws ≠ [] := by
      intro hc
      rw [hc] at hemp
      simp at hemp
    rcases List.mem_append.mp he with hs | hr
    · rcases List.mem_map.mp hs with ⟨x, hx, rfl⟩
      exact hx
    · rcases List.mem_map.mp hr with ⟨i, _, rfl⟩
      exact remainderSeat_mem _ _ hew (mem_seatOrderFrom d t _) i

theorem potEffectiveWinners_subset (pot : SidePot) (ws : List Nat) :
    ∀ x ∈ potEffectiveWinners pot ws, x ∈ pot.eligibleSeats := by
  intro x hx
  unfold potEffectiveWinners at hx
  cases hE : pot.eligibleSeats with
  | nil =>
    rw [hE] at hx
    simpa using (List.mem_filter.mp hx).2
  | cons a rest =>
    cases rest with
    | nil =>
      rw [hE] at hx
      rw [List.mem_singleton] at hx
      simp [hx]
    | cons b rest2 =>
      rw [hE] at hx
      have := (List.mem_filter.mp hx).2
      simpa using this

theorem sidePotsLoop_eligible (contribs : List Contribution) (prev : Nat) (levels : List Nat) :
    ∀ pot ∈ sidePotsLoop contribs prev levels, ∀ x ∈ pot.eligibleSeats,
      ∃ c ∈ contribs, c.seat = x := by
  induction levels generalizing prev with
  | nil => intro pot hpot; cases hpot
  | cons l rest ih =>
    intro pot hpot x hx
    unfold sidePotsLoop at hpot
    dsimp only at hpot
    by_cases hz : 0 < (l - prev) * (contribs.filter (fun c => decide (l ≤ c.amount))).length
    · rw [if_pos hz] at hpot
      rcases List.mem_cons.mp hpot with rfl | htail
      · dsimp only at hx
        rcases List.mem_map.mp hx with ⟨c, hc, rfl⟩
        exact ⟨c, List.mem_of_mem_filter (List.mem_of_mem_filter hc), rfl⟩
      · exact ih l pot htail x hx
    · rw [if_neg hz] at hpot
      exact ih l pot hpot x hx

theorem seat_lt_of_mem (ps : List Player) (hidx : seatsIndexed ps) :
    ∀ p ∈ ps, p.seat < ps.length := by
  intro p hp
  rcases List.mem_iff_get.mp hp with ⟨i, rfl⟩
  rw [hidx i.1 i.2]
  exact i.2

theorem computeSidePots_eligible_lt (ps : List Player) (hidx : seatsIndexed ps) :
    ∀ pot ∈ computeSidePots ps, ∀ x ∈ pot.eligibleSeats, x < ps.length := by
  intro pot hpot x hx
  unfold computeSidePots at hpot
  obtain ⟨c, hc, rfl⟩ := sidePotsLoop_eligible _ _ _ pot hpot x hx
  rcases List.mem_map.mp hc with ⟨p, hp, rfl⟩
  exact seat_lt_of_mem ps hidx p (List.mem_of_mem_filter hp)

theorem enum_map_getD {α β : Type} (l : List α) (f : Nat × α → β) (d : β) (i : Nat)
    (h : i < l.length) :
    (l.enum.map f).getD i d = f (i, l.get ⟨i, h⟩) := by
  rw [List.getD_eq_getElem?_getD]
  rw [List.getElem?_map]
  have : l.enum[i]? = some (i, l.get ⟨i, h⟩) := by
    rw [← List.get?_eq_getElem?, List.get?_enum, List.get?_eq_get h]
    rfl
  rw [this]
  rfl

theorem normalize_getD_subset (ps : List Player) (pots : List SidePot) (pw : List (List Nat))
    (idx : Nat) (hidx : idx < pots.length) :
    ∀ x ∈ (normalizePotWinnersForPots ps pots pw).getD idx [],
      x ∈ (pots.get ⟨idx, hidx⟩).eligibleSeats := by
  intro x hx
  unfold normalizePotWinnersForPots at hx
  rw [enum_map_getD pots _ [] idx hidx] at hx
  dsimp only at hx
  cases hE : (pots.get ⟨idx, hidx⟩).eligibleSeats with
  | nil =>
    rw [hE] at hx
    simpa using (List.mem_filter.mp hx).2
  | cons a rest =>
    cases rest with
    | nil =>
      rw [hE] at hx
      rw [List.mem_singleton] at hx
      simp [hx]
    | cons b rest2 =>
      rw [hE] at hx
      simpa using (List.mem_filter.mp hx).2

theorem settle_effective_nonempty (ps : List Player) (pw : List (List Nat))
    (helig : ∀ pot ∈ computeSidePots ps, pot.eligibleSeats ≠ [])
    (hval : ¬ ((computeSidePots ps).enum.any (fun pr =>
        decide (1 < pr.2.eligibleSeats.length) &&
        decide (((normalizePotWinnersForPots ps (computeSidePots ps) pw).getD pr.1 []).length
          = 0)) = true)) :
    ∀ pr ∈ (computeSidePots ps).enum,
      potEffectiveWinners pr.2
        ((normalizePotWinnersForPots ps (computeSidePots ps) pw).getD pr.1 []) ≠ [] := by
  intro pr hpr
  have hget : (computeSidePots ps).get? pr.1 = some pr.2 := List.mem_enum_iff_get?.mp hpr
  obtain ⟨hlt, hgeteq⟩ := List.get?_eq_some.mp hget
  have hpot : pr.2 ∈ computeSidePots ps := by
    rw [← hgeteq]
    exact List.get_mem _ _ _
  cases hE : pr.2.eligibleSeats with
  | nil => exact absurd hE (helig pr.2 hpot)
  | cons a rest =>
    cases rest with
    | nil =>
      unfold potEffectiveWinners
      rw [hE]
      simp
    | cons b rest2 =>
      have hlen2 : 1 < pr.2.eligibleSeats.length := by
        rw [hE]; simp
      have hne : ((normalizePotWinnersForPots ps (computeSidePots ps) pw).getD pr.1 []).length
          ≠ 0 := by
        intro hzero
        apply hval
        rw [List.any_eq_true]
        refine ⟨pr, hpr, ?_⟩
        dsimp only
        rw [decide_eq_true hlen2, decide_eq_true hzero]
        rfl
      have hsub := normalize_getD_subset ps (computeSidePots ps) pw pr.1 hlt
      unfold potEffectiveWinners
      rw [hE]
      dsimp only
      have hfilter : ((normalizePotWinnersForPots ps (computeSidePots ps) pw).getD pr.1
          []).filter (fun st => decide (st ∈ (a :: b :: rest2 : List Nat))) =
          (normalizePotWinnersForPots ps (computeSidePots ps) pw).getD pr.1 [] := by
        apply List.filter_eq_self.mpr
        intro x hx
        have hx2 := hsub x hx
        rw [hgeteq, hE] at hx2
        simpa using hx2
      rw [hfilter]
      intro hc
      exact hne (by rw [hc]; rfl)

theorem distributePotsCredits_fst_lt (ps : List Player) (hidx : seatsIndexed ps)
    (pw : List (List Nat)) (d t : Nat) :
    ∀ e ∈ distributePotsCredits (computeSidePots ps) pw d t, e.1 < ps.length := by
  intro e he
  unfold distributePotsCredits at he
  rcases List.mem_flatten.mp he with ⟨l, hl, hel⟩
  rcases List.mem_map.mp hl with ⟨pr, hpr, rfl⟩
  have h1 := potCredits_fst_mem pr.2 (pw.getD pr.1 []) d t e hel
  have h2 := potEffectiveWinners_subset pr.2 _ e.1 h1
  have hget : (computeSidePots ps).get? pr.1 = some pr.2 := List.mem_enum_iff_get?.mp hpr
  obtain ⟨hlt, hgeteq⟩ := List.get?_eq_some.mp hget
  have hpot : pr.2 ∈ computeSidePots ps := by
    rw [← hgeteq]
    exact List.get_mem _ _ _
  exact computeSidePots_eligible_lt ps hidx pr.2 hpot e.1 h2

theorem sum_over_indexed (ps : List Player) (hidx : seatsIndexed ps) (f : Nat → Nat) :
    (ps.map (fun p => f p.seat)).sum = ((List.range ps.length).map f).sum := by
  apply congrArg List.sum
  apply List.ext_get
  · simp
  · intro i h1 h2
    have h1' : i < ps.length := by simpa using h1
    rw [get_map_eq _ ps i h1 h1', hidx i h1']
    have h2' : i < (List.range ps.length).length := by simpa using h2
    rw [get_map_eq f (List.range ps.length) i h2 h2']
    congr 1
    exact (List.get_range i h2').symm

theorem chipSum_split (ps : List Player) : chipSum ps = stackSum ps + committedSum ps := by
  unfold chipSum stackSum committedSum
  exact sum_map_add ps (fun p => p.stack) (fun p => p.totalCommitted)

theorem settle_players_chipSum (ps : List Player) (hidx : seatsIndexed ps) (f : Nat → Nat) :
    chipSum (ps.map (fun p =>
      { p with stack := p.stack + f p.seat, streetBet := 0, totalCommitted := 0, acted := false,
               status := if p.stack + f p.seat = 0 then PlayerStatus.out
                         else PlayerStatus.active })) =
      stackSum ps + ((List.range ps.length).map f).sum := by
  unfold chipSum stackSum
  rw [List.map_map]
  have e : ps.map ((fun p => p.stack + p.totalCommitted) ∘ (fun p =>
      { p with stack := p.stack + f p.seat, streetBet := 0, totalCommitted := 0, acted := false,
               status := if p.stack + f p.seat = 0 then PlayerStatus.out
                         else PlayerStatus.active })) =
      ps.map (fun p => p.stack + f p.seat) :=
    List.map_congr_left (fun p _ => rfl)
  rw [e, sum_map_add ps (fun p => p.stack) (fun p => f p.seat),
    sum_over_indexed ps hidx f]

theorem settleHand_inv (S : Nat) (s : GameState) (h : stateInv S s)
    (helig : ∀ pot ∈ computeSidePots s.players, pot.eligibleSeats ≠ []) :
    stateInv S (settleHand s) := by
  unfold settleHand
  by_cases hn : s.players.length < 2
  · rw [if_pos hn]
    exact h
  rw [if_neg hn]
  dsimp only
  by_cases hval : ((computeSidePots s.players).enum.any (fun pr =>
      decide (1 < pr.2.eligibleSeats.length) &&
      decide (((normalizePotWinnersForPots s.players (computeSidePots s.players)
        s.potWinners).getD pr.1 []).length = 0))) = true
  · rw [if_pos hval]
    exact h
  · rw [if_neg hval]
    refine ⟨?_, ?_, ?_⟩
    · refine seatsIndexed_of_key_eq s.players _ ?_ h.1
      exact map_map_cancel _ _ _ (fun p => rfl)
    · have hD := distributePotsCredits_fst_lt s.players h.1
        (normalizePotWinnersForPots s.players (computeSidePots s.players) s.potWinners)
        s.dealerSeat s.players.length
      have h1 : ((List.range s.players.length).map
          (distributePots (computeSidePots s.players)
            (normalizePotWinnersForPots s.players (computeSidePots s.players) s.potWinners)
            s.dealerSeat s.players.length)).sum = committedSum s.players := by
        have e0 : (List.range s.players.length).map
            (distributePots (computeSidePots s.players)
              (normalizePotWinnersForPots s.players (computeSidePots s.players) s.potWinners)
              s.dealerSeat s.players.length) =
            (List.range s.players.length).map (fun st =>
              (((distributePotsCredits (computeSidePots s.players)
                (normalizePotWinnersForPots s.players (computeSidePots s.players) s.potWinners)
                s.dealerSeat s.players.length).filter (fun e => e.1 == st)).map
                  (fun e => e.2)).sum) := rfl
        rw [e0, sum_range_filter_sum _ _ hD]
        have e1 : ((distributePotsCredits (computeSidePots s.players)
            (normalizePotWinnersForPots s.players (computeSidePots s.players) s.potWinners)
            s.dealerSeat s.players.length).map (fun e => e.2)).sum =
            distributePotsTotal (computeSidePots s.players)
              (normalizePotWinnersForPots s.players (computeSidePots s.players) s.potWinners)
              s.dealerSeat s.players.length := rfl
        rw [e1, distributePotsTotal_eq _ _ _ _
          (settle_effective_nonempty s.players s.potWinners helig hval)]
        exact computeSidePots_amount_sum s.players
      have step1 := settle_players_chipSum s.players h.1
        (distributePots (computeSidePots s.players)
          (normalizePotWinnersForPots s.players (computeSidePots s.players) s.potWinners)
          s.dealerSeat s.players.length)
      rw [h1] at step1
      exact step1.trans ((chipSum_split s.players).symm.trans h.2.1)
    · intro pt hpt
      simp at hpt

theorem key_chain {ps qs : List Player} (g : Player → Player)
    (hg : ∀ p, playerKey (g p) = playerKey p)
    (h : ps.map playerKey = qs.map playerKey) :
    (ps.map g).map playerKey = qs.map playerKey :=
  (map_map_cancel ps g playerKey hg).trans h

theorem chip_chain {ps qs : List Player} (g : Player → Player)
    (hg : ∀ p, (g p).stack + (g p).totalCommitted = p.stack + p.totalCommitted)
    (h : chipSum ps = chipSum qs) : chipSum (ps.map g) = chipSum qs :=
  (chipSum_map_cancel ps g hg).trans h

theorem key_chain_ite {ps qs : List Player} (c : Prop) [Decidable c] (g : Player → Player)
    (hg : ∀ p, playerKey (g p) = playerKey p)
    (h : ps.map playerKey = qs.map playerKey) :
    (if c then ps.map g else ps).map playerKey = qs.map playerKey := by
  by_cases hc : c
  · rw [if_pos hc]
    exact key_chain g hg h
  · rw [if_neg hc]
    exact h

theorem chip_chain_ite {ps qs : List Player} (c : Prop) [Decidable c] (g : Player → Player)
    (hg : ∀ p, (g p).stack + (g p).totalCommitted = p.stack + p.totalCommitted)
    (h : chipSum ps = chipSum qs) : chipSum (if c then ps.map g else ps) = chipSum qs := by
  by_cases hc : c
  · rw [if_pos hc]
    exact chip_chain g hg h
  · rw [if_neg hc]
    exact h

theorem key_if_post (c : Prop) [Decidable c] (p : Player) (amt : Nat) :
    playerKey (if c then postForcedBet p amt else p) = playerKey p := by
  by_cases hc : c
  · rw [if_pos hc]
    exact postForcedBet_key p amt
  · rw [if_neg hc]

theorem chips_if_post (c : Prop) [Decidable c] (p : Player) (amt : Nat) :
    (if c then postForcedBet p amt else p).stack +
      (if c then postForcedBet p amt else p).totalCommitted = p.stack + p.totalCommitted := by
  by_cases hc : c
  · rw [if_pos hc]
    exact postForcedBet_chips p amt
  · rw [if_neg hc]

theorem chipSum_reset (ps : List Player) : chipSum (ps.map resetForHand) = stackSum ps := by
  unfold chipSum stackSum
  rw [List.map_map]
  exact congrArg List.sum (List.map_congr_left (fun p _ => rfl))

theorem beginHand_start_inv (s : GameState) (hseats : seatsIndexed s.players)
    (hok : startHandOk s) :
    stateInv (stackSum s.players) (reducer s Action.START_HAND) := by
  obtain ⟨hend, hcount⟩ := hok
  show stateInv _ (beginHand { s with lastError := none })
  unfold beginHand
  dsimp only
  rw [if_neg (by simp [hend])]
  rw [if_neg (Nat.not_lt.mpr hcount)]
  refine ⟨?_, ?_, ?_⟩
  · refine seatsIndexed_of_key_eq s.players _ ?_ hseats
    refine key_chain _ (fun p => rfl) ?_
    refine key_chain _ (fun p => key_if_post _ p _) ?_
    refine key_chain _ (fun p => key_if_post _ p _) ?_
    refine key_chain_ite _ _ (fun p => key_if_post _ p _) ?_
    exact key_chain _ (fun p => rfl) rfl
  · refine Eq.trans ?_ (chipSum_reset s.players)
    refine chip_chain _ (fun p => rfl) ?_
    refine chip_chain _ (fun p => chips_if_post _ p _) ?_
    refine chip_chain _ (fun p => chips_if_post _ p _) ?_
    refine chip_chain_ite _ _ (fun p => chips_if_post _ p _) ?_
    rfl
  · intro pt hpt
    simp at hpt

theorem conservesChips_step (S : Nat) (s : GameState) (a : Action)
    (h : stateInv S s) (hc : conservesChips s a = true) : stateInv S (reducer s a) := by
  cases a with
  | PLAYER_ACT seat act => exact reducer_PLAYER_ACT_inv S s seat act h
  | ROLLBACK => exact reducer_ROLLBACK_inv S s h
  | NEXT_STREET => exact reducer_NEXT_STREET_inv S s h
  | SET_BOARD t => exact reducer_SET_BOARD_inv S s t h
  | SET_HOLE seat t => exact reducer_SET_HOLE_inv S s seat t h
  | SET_POT_WINNERS i seats => exact reducer_SET_POT_WINNERS_inv S s i seats h
  | SET_POT_WINNERS_ALL pw => exact reducer_SET_POT_WINNERS_ALL_inv S s pw h
  | CANCEL_HAND => exact reducer_CANCEL_HAND_inv S s h
  | SETTLE_HAND =>
    have helig : ∀ pot ∈ computeSidePots s.players, pot.eligibleSeats ≠ [] := by
      unfold conservesChips isHandPlayAction at hc
      rw [Bool.or_eq_true] at hc
      rcases hc with hc | hc
      · cases hc
      · intro pot hpot
        have := List.all_eq_true.mp hc pot hpot
        intro hnil
        rw [hnil] at this
        simp at this
    exact settleHand_inv S { s with lastError := none } (stateInv_clear S s h) helig
  | SETUP_SET_CONFIG a b c => simp [conservesChips, isHandPlayAction] at hc
  | SETUP_SET_PLAYERS ps => simp [conservesChips, isHandPlayAction] at hc
  | SETUP_MOVE_PLAYER f t => simp [conservesChips, isHandPlayAction] at hc
  | SETUP_SET_DEALER d => simp [conservesChips, isHandPlayAction] at hc
  | SESSION_START id st => simp [conservesChips, isHandPlayAction] at hc
  | SESSION_END e => simp [conservesChips, isHandPlayAction] at hc
  | START_HAND => simp [conservesChips, isHandPlayAction] at hc
  | REBUY seat amount => simp [conservesChips, isHandPlayAction] at hc
  | RESET_SESSION => simp [conservesChips, isHandPlayAction] at hc
  | RESET_GAME => simp [conservesChips, isHandPlayAction] at hc
  | SYNC_SET_SNAPSHOT st => simp [conservesChips, isHandPlayAction] at hc

theorem conservativeTrace_inv (S : Nat) (acts : List Action) :
    ∀ s : GameState, stateInv S s → conservativeTrace s acts = true →
      stateInv S (applyActions s acts) := by
  induction acts with
  | nil => intro s h _; exact h
  | cons a rest ih =>
    intro s h htr
    unfold conservativeTrace at htr
    rw [Bool.and_eq_true] at htr
    exact ih (reducer s a) (conservesChips_step S s a h htr.1) htr.2

/-! ## The claims -/

/-- C1, counterexample: chip conservation does not hold for arbitrary
action sequences after `START_HAND`. First, `REBUY` adds chips at any
time, including mid-hand. Second, `SETTLE_HAND` destroys the chips of a
pot tier whose contributors have all folded: after a bet of 10 on the
flop (reachable because `NEXT_STREET` has no guard), the bettor folds,
and `settleHand` drops the orphaned pot, since `distributePots` skips
pots with no eligible winner, leaving 392 of the original 400 chips. -/
theorem C1_counterexample :
    ¬ (chipSum (applyActions (reducer createInitialState Action.START_HAND)
          [Action.REBUY 0 100]).players = stackSum createInitialState.players) ∧
    ¬ (chipSum (applyActions (reducer createInitialState Action.START_HAND)
          [Action.PLAYER_ACT 1 (PlayerAction.betTo 10), Action.NEXT_STREET,
           Action.PLAYER_ACT 1 PlayerAction.fold, Action.SETTLE_HAND]).players =
        stackSum createInitialState.players) := by
  decide

/-- C1, amended (chip conservation for hand-play traces): from any state
whose seats index its player array and on which `START_HAND` succeeds,
every sequence of in-hand actions (`PLAYER_ACT`, `ROLLBACK`,
`NEXT_STREET`, `SET_BOARD`, `SET_HOLE`, `SET_POT_WINNERS`,
`SET_POT_WINNERS_ALL`, `CANCEL_HAND`, and `SETTLE_HAND` provided every
computed pot has at least one eligible seat) preserves the total of
`stack + totalCommitted` over all players: it stays equal to the sum of
the stacks at the start of the hand. -/
theorem C1_amended_chip_conservation (s0 : GameState) (acts : List Action)
    (hseats : seatsIndexed s0.players) (hok : startHandOk s0)
    (htr : conservativeTrace (reducer s0 Action.START_HAND) acts = true) :
    chipSum (applyActions (reducer s0 Action.START_HAND) acts).players =
      stackSum s0.players :=
  (conservativeTrace_inv (stackSum s0.players) acts (reducer s0 Action.START_HAND)
    (beginHand_start_inv s0 hseats hok) htr).2.1

/-- C1 witness: the amended conservation theorem applied to the default
initial two-player state and the trace call, check, settle. -/
theorem C1_amended_chip_conservation_witness :
    seatsIndexed createInitialState.players ∧ startHandOk createInitialState ∧
    conservativeTrace (reducer createInitialState Action.START_HAND)
      [Action.PLAYER_ACT 1 PlayerAction.call, Action.PLAYER_ACT 0 PlayerAction.check,
       Action.SETTLE_HAND] = true ∧
    chipSum (applyActions (reducer createInitialState Action.START_HAND)
        [Action.PLAYER_ACT 1 PlayerAction.call, Action.PLAYER_ACT 0 PlayerAction.check,
         Action.SETTLE_HAND]).players = stackSum createInitialState.players :=
  ⟨by decide, by decide, by decide,
    C1_amended_chip_conservation createInitialState
      [Action.PLAYER_ACT 1 PlayerAction.call, Action.PLAYER_ACT 0 PlayerAction.check,
       Action.SETTLE_HAND] (by decide) (by decide) (by decide)⟩

/-- C2 (pot partition): for every list of players, the sum of the amounts
of the pots returned by `computeSidePots` equals the sum of all players'
`totalCommitted` values. -/
theorem C2_pot_partition (players : List Player) :
    ((computeSidePots players).map (fun pot => pot.amount)).sum =
      (players.map (fun p => p.totalCommitted)).sum :=
  computeSidePots_amount_sum players

/-- C3, counterexample: `distributePots` on a pot whose declared winner
list is empty (and which has two eligible seats, so no auto-assignment)
pays out nothing, so the total payout does not equal the pot total. -/
theorem C3_counterexample :
    ¬ (distributePotsTotal [⟨5, [0, 1]⟩] [[]] 0 2 =
        (([⟨5, [0, 1]⟩] : List SidePot).map (fun pot => pot.amount)).sum) := by
  decide

/-- C3, amended: for every list of pots and every per-pot winner
assignment in which each pot's effective winner list (its single eligible
seat, or the declared winners intersected with its eligible seats) is
non-empty, the total of all payouts returned by `distributePots` equals
the sum of the pots' amounts exactly. -/
theorem C3_amended_settlement_conservation (pots : List SidePot)
    (potWinners : List (List Nat)) (dealerSeat totalSeats : Nat)
    (h : ∀ pr ∈ pots.enum, potEffectiveWinners pr.2 (potWinners.getD pr.1 []) ≠ []) :
    distributePotsTotal pots potWinners dealerSeat totalSeats =
      (pots.map (fun pot => pot.amount)).sum :=
  distributePotsTotal_eq pots potWinners dealerSeat totalSeats h

/-- Witness for C3: a pot of 5 split between two tied winners (dealer seat
3 of 4) pays out 5 in total. -/
theorem C3_amended_settlement_conservation_witness :
    (∀ pr ∈ ([⟨5, [0, 1]⟩] : List SidePot).enum,
      potEffectiveWinners pr.2 (([[0, 1]] : List (List Nat)).getD pr.1 []) ≠ []) ∧
    distributePotsTotal [⟨5, [0, 1]⟩] [[0, 1]] 3 4 =
      (([⟨5, [0, 1]⟩] : List SidePot).map (fun pot => pot.amount)).sum :=
  ⟨by decide, C3_amended_settlement_conservation [⟨5, [0, 1]⟩] [[0, 1]] 3 4 (by decide)⟩

/-- C4, counterexample: an illegal CHECK issued by the player whose turn
it is (the heads-up small blind facing a bet) sets `lastError`, but the
returned state's rollback stack is not identical to the input's — a
rollback point was pushed before the action was validated. -/
theorem C4_counterexample :
    (reducer (reducer createInitialState Action.START_HAND)
        (Action.PLAYER_ACT 1 PlayerAction.check)).lastError.isSome = true ∧
    ¬ ((reducer (reducer createInitialState Action.START_HAND)
          (Action.PLAYER_ACT 1 PlayerAction.check)).rollbackStack =
        (reducer createInitialState Action.START_HAND).rollbackStack) := by
  decide

/-- C4, amended: an unrecognized or illegal action returns the input
state with only `lastError` changed — except that an illegal CHECK or an
invalid BET_TO issued by the active player whose turn it is additionally
pushes a rollback point (capturing the unchanged pre-action state) onto
the rollback stack.  Specifically: (1) a `PLAYER_ACT` whose reducer-level
guards fail (wrong phase, wrong seat, missing or inactive actor) changes
only `lastError`; (2) an illegal CHECK at the action seat changes
`lastError` and pushes a rollback point; (3) a rejected BET_TO at the
action seat does the same; (4) `START_HAND` on an ended session and (5)
`START_HAND` with fewer than two funded players change only `lastError`. -/
theorem C4_amended_error_atomicity :
    (∀ (s : GameState) (seat : Nat) (act : PlayerAction), ¬ pushesRollback s seat →
      ∃ e, reducer s (Action.PLAYER_ACT seat act) = { s with lastError := some e }) ∧
    (∀ (s : GameState) (seat : Nat), pushesRollback s seat → toCall s seat ≠ 0 →
      reducer s (Action.PLAYER_ACT seat PlayerAction.check) =
        { s with rollbackStack := pushedRollbackStack s,
                 lastError := some "当前不能check，需要跟注或弃牌" }) ∧
    (∀ (s : GameState) (seat : Nat) (actor : Player) (bt : Int), pushesRollback s seat →
      s.players.get? seat = some actor → betToRejected s actor bt →
      ∃ e, reducer s (Action.PLAYER_ACT seat (PlayerAction.betTo bt)) =
        { s with rollbackStack := pushedRollbackStack s, lastError := some e }) ∧
    (∀ s : GameState, sessionEndedTruthy s.session = true →
      reducer s Action.START_HAND =
        { s with lastError := some "本局游戏已结束，请开始新一局" }) ∧
    (∀ s : GameState, sessionEndedTruthy s.session = false → ¬ startHandOk s →
      reducer s Action.START_HAND =
        { s with lastError := some "需要至少2个有筹码的玩家才能开始" }) := by
  refine ⟨?part1, ?part2, ?part3, ?part4, ?part5⟩
  case part1 =>
    intro s seat act h
    rw [reducer_PLAYER_ACT_nopush s seat act h]
    have h' : ¬ pushesRollback { s with lastError := none } seat := h
    obtain ⟨e, he⟩ := applyPlayerAction_guard_error { s with lastError := none } seat act h'
    exact ⟨e, he⟩
  case part2 =>
    intro s seat hp htc
    rw [reducer_PLAYER_ACT_push s seat PlayerAction.check hp]
    obtain ⟨hphase, hseat, hmatch⟩ := hp
    unfold applyPlayerAction
    dsimp only
    cases hget : s.players.get? seat with
    | none => simp only [hget] at hmatch
    | some actor =>
      simp only [hget] at hmatch
      dsimp only
      rw [if_neg (by simp [hmatch.1]), if_neg (by simp [hphase]), if_neg (by simp [hseat]),
        if_neg (by simp [hmatch.2])]
      have htc' : toCallFor actor s ≠ 0 := by
        unfold toCall at htc
        simp only [hget] at htc
        exact htc
      rw [if_pos ⟨rfl, htc'⟩]
  case part3 =>
    intro s seat actor bt hp hget hrej
    rw [reducer_PLAYER_ACT_push s seat (PlayerAction.betTo bt) hp]
    obtain ⟨hphase, hseat, hmatch⟩ := hp
    simp only [hget] at hmatch
    unfold applyPlayerAction
    dsimp only
    rw [hget]
    dsimp only
    rw [if_neg (by simp [hmatch.1]), if_neg (by simp [hphase]), if_neg (by simp [hseat]),
      if_neg (by simp [hmatch.2]), if_neg (by simp)]
    rcases hrej with hA | hB
    · rw [if_pos hA]
      exact ⟨_, rfl⟩
    · by_cases hA : clampToNat bt 0 1000000000 ≤ s.currentBet ∧
          clampToNat (Int.ofNat (clampToNat bt 0 1000000000)) 0
            (actor.streetBet + actor.stack) ≤ s.currentBet
      · rw [if_pos hA]
        exact ⟨_, rfl⟩
      · rw [if_neg hA, if_pos hB]
        exact ⟨_, rfl⟩
  case part4 =>
    intro s h
    show reducerGo { s with lastError := none } Action.START_HAND = _
    unfold reducerGo beginHand
    dsimp only
    rw [if_pos h]
  case part5 =>
    intro s h hnot
    show reducerGo { s with lastError := none } Action.START_HAND = _
    unfold reducerGo beginHand
    dsimp only
    rw [if_neg (by simp [h])]
    have hlt : (((s.players.map resetForHand).filter (fun p => p.status == .active)).map
        (fun p => p.seat)).length < 2 := by
      by_contra hle
      exact hnot ⟨h, Nat.le_of_not_lt hle⟩
    rw [if_pos hlt]

/-- Witness for C4 at concrete inputs: a `PLAYER_ACT` out of turn (seat 0
when the action is on seat 1) changes only `lastError`; an illegal CHECK
at the action seat sets the error and pushes one rollback point;
`START_HAND` from a one-player-funded table fails with only `lastError`
changed. -/
theorem C4_amended_error_atomicity_witness :
    (∃ e, reducer (reducer createInitialState Action.START_HAND)
        (Action.PLAYER_ACT 0 PlayerAction.check) =
      { reducer createInitialState Action.START_HAND with lastError := some e }) ∧
    (reducer (reducer createInitialState Action.START_HAND)
        (Action.PLAYER_ACT 1 PlayerAction.check) =
      { reducer createInitialState Action.START_HAND with
          rollbackStack := pushedRollbackStack (reducer createInitialState Action.START_HAND),
          lastError := some "当前不能check，需要跟注或弃牌" }) :=
  ⟨C4_amended_error_atomicity.1 (reducer createInitialState Action.START_HAND) 0
      PlayerAction.check (by decide),
   C4_amended_error_atomicity.2.1 (reducer createInitialState Action.START_HAND) 1
      (by decide) (by decide)⟩

/-- C5: for every in-hand state with seat indices in array position and
the actor at the action seat active (so the `PLAYER_ACT` pushes a rollback
point), an immediately following `ROLLBACK` restores a state equal to the
pre-action state in every captured field: the whole player list (stacks,
street bets, commitments, statuses, acted flags, hole-card texts — and
their untouched seats and names), phase, street, current bet, action seat,
dealer seat, board text and pot winners. -/
theorem C5_rollback_round_trip (s : GameState) (seat : Nat) (act : PlayerAction)
    (hseats : seatsIndexed s.players) (hp : pushesRollback s seat) :
    (rollbackAfterAct s seat act).players = s.players ∧
    (rollbackAfterAct s seat act).phase = s.phase ∧
    (rollbackAfterAct s seat act).street = s.street ∧
    (rollbackAfterAct s seat act).currentBet = s.currentBet ∧
    (rollbackAfterAct s seat act).actionSeat = s.actionSeat ∧
    (rollbackAfterAct s seat act).dealerSeat = s.dealerSeat ∧
    (rollbackAfterAct s seat act).boardCardsText = s.boardCardsText ∧
    (rollbackAfterAct s seat act).potWinners = s.potWinners := by
  obtain ⟨s1, hs1⟩ : ∃ s1, applyPlayerAction
      { s with lastError := none, rollbackStack := pushedRollbackStack s } seat act = s1 :=
    ⟨_, rfl⟩
  obtain ⟨f1, f2, -⟩ := applyPlayerAction_frame
    { s with lastError := none, rollbackStack := pushedRollbackStack s } seat act
  rw [hs1] at f1 f2
  have f1' : s1.rollbackStack = pushedRollbackStack s := f1
  have f2' : s1.players.map playerKey = s.players.map playerKey := f2
  have hra : rollbackAfterAct s seat act = rollbackOnce { s1 with lastError := none } := by
    unfold rollbackAfterAct
    rw [reducer_PLAYER_ACT_push s seat act hp, hs1]
    rfl
  have hlast : ({ s1 with lastError := none } : GameState).rollbackStack.getLast? =
      some (makeRollbackPoint s) := by
    show s1.rollbackStack.getLast? = _
    rw [f1']
    exact pushedRollbackStack_getLast s
  rw [hra, rollbackOnce_restore _ _ hlast]
  refine ⟨?_, rfl, rfl, rfl, rfl, rfl, rfl, rfl⟩
  show s1.players.map (fun p =>
      match lastBySeat (makeRollbackPoint s).players p.seat with
      | none => p
      | some prev => restorePlayer p prev) = s.players
  have hlen1 : s1.players.length = s.players.length := by
    have := congrArg List.length f2'
    simpa using this
  have hrpidx : rpSeatsIndexed (makeRollbackPoint s).players := by
    intro j hj
    have hj' : j < s.players.length := by
      simpa [makeRollbackPoint] using hj
    have hg : (makeRollbackPoint s).players.get ⟨j, hj⟩ =
        capturePlayer (s.players.get ⟨j, hj'⟩) :=
      get_map_eq capturePlayer s.players j hj hj'
    rw [hg]
    exact hseats j hj'
  apply List.ext_get
  · simpa using hlen1
  · intro i h1 h2
    have h1' : i < s1.players.length := by simpa using h1
    rw [get_map_eq _ s1.players i h1 h1']
    have hkey := map_eq_pointwise playerKey s1.players s.players f2' i h1' h2
    have hseat1 : (s1.players.get ⟨i, h1'⟩).seat = (s.players.get ⟨i, h2⟩).seat :=
      congrArg Prod.fst hkey
    have hname1 : (s1.players.get ⟨i, h1'⟩).name = (s.players.get ⟨i, h2⟩).name :=
      congrArg Prod.snd hkey
    have hsi : (s.players.get ⟨i, h2⟩).seat = i := hseats i h2
    have hcap : i < (makeRollbackPoint s).players.length := by
      simpa [makeRollbackPoint] using h2
    rw [hseat1, hsi, lastBySeat_of_indexed (makeRollbackPoint s).players hrpidx i hcap]
    have hcapget : (makeRollbackPoint s).players.get ⟨i, hcap⟩ =
        capturePlayer (s.players.get ⟨i, h2⟩) :=
      get_map_eq capturePlayer s.players i hcap h2
    rw [hcapget]
    exact restore_capture (s.players.get ⟨i, h2⟩) (s1.players.get ⟨i, h1'⟩) hseat1 hname1

/-- Witness for C5: heads-up after `START_HAND`, the small blind calls and
the table rolls back; every captured field is restored. -/
theorem C5_rollback_round_trip_witness :
    (rollbackAfterAct (reducer createInitialState Action.START_HAND) 1
        PlayerAction.call).players = (reducer createInitialState Action.START_HAND).players ∧
    (rollbackAfterAct (reducer createInitialState Action.START_HAND) 1
        PlayerAction.call).phase = (reducer createInitialState Action.START_HAND).phase ∧
    (rollbackAfterAct (reducer createInitialState Action.START_HAND) 1
        PlayerAction.call).street = (reducer createInitialState Action.START_HAND).street ∧
    (rollbackAfterAct (reducer createInitialState Action.START_HAND) 1
        PlayerAction.call).currentBet = (reducer createInitialState Action.START_HAND).currentBet ∧
    (rollbackAfterAct (reducer createInitialState Action.START_HAND) 1
        PlayerAction.call).actionSeat = (reducer createInitialState Action.START_HAND).actionSeat ∧
    (rollbackAfterAct (reducer createInitialState Action.START_HAND) 1
        PlayerAction.call).dealerSeat = (reducer createInitialState Action.START_HAND).dealerSeat ∧
    (rollbackAfterAct (reducer createInitialState Action.START_HAND) 1
        PlayerAction.call).boardCardsText =
      (reducer createInitialState Action.START_HAND).boardCardsText ∧
    (rollbackAfterAct (reducer createInitialState Action.START_HAND) 1
        PlayerAction.call).potWinners = (reducer createInitialState Action.START_HAND).potWinners :=
  C5_rollback_round_trip (reducer createInitialState Action.START_HAND) 1 PlayerAction.call
    (by decide) (by decide)

/-- C6, counterexample: in the heads-up start state `currentBet` is 2 and
the minimum raise (`minRaiseTo`) is 4, yet `BET_TO 3` — which does not
exceed the current bet by the minimum raise — is accepted: no error is
set and the current bet becomes 3.  The engine never enforces
`minRaiseTo`. -/
theorem C6_counterexample :
    minRaiseTo (reducer createInitialState Action.START_HAND) = 4 ∧
    (applyPlayerAction (reducer createInitialState Action.START_HAND) 1
        (PlayerAction.betTo 3)).lastError = none ∧
    (applyPlayerAction (reducer createInitialState Action.START_HAND) 1
        (PlayerAction.betTo 3)).currentBet = 3 := by
  decide

/-- C6, amended: for an in-hand state with the actor at the action seat
and active, `BET_TO` is rejected — error set, state otherwise unchanged —
exactly when the requested amount (clamped to `[0, 10^9]`) does not exceed
the current bet, or when its further clamp into `[0, streetBet + stack]`
does not exceed the actor's street bet; the minimum raise is not
enforced.  When not rejected, no error is set. -/
theorem C6_amended_betTo_validation (s : GameState) (seat : Nat) (actor : Player) (bt : Int)
    (hget : s.players.get? seat = some actor) (hseat : actor.seat = seat)
    (hphase : s.phase = Phase.hand) (hact : seat = s.actionSeat)
    (hstatus : actor.status = PlayerStatus.active) :
    (betToRejected s actor bt →
      ∃ e, applyPlayerAction s seat (PlayerAction.betTo bt) = { s with lastError := some e }) ∧
    (¬ betToRejected s actor bt →
      (applyPlayerAction s seat (PlayerAction.betTo bt)).lastError = none) := by
  obtain ⟨hlt, hgeteq⟩ := List.get?_eq_some.mp hget
  unfold applyPlayerAction
  rw [hget]
  dsimp only
  rw [if_neg (by simp [hseat]), if_neg (by simp [hphase]), if_neg (by simp [hact]),
    if_neg (by simp [hstatus]), if_neg (by simp)]
  have keyset : ∀ p' : Player, playerKey p' = playerKey actor →
      (s.players.set seat p').map playerKey = s.players.map playerKey := by
    intro p' hp'
    refine map_set_cancel _ _ _ playerKey (fun hh => ?_)
    have hg : s.players.get ⟨seat, hh⟩ = actor := hgeteq
    rw [hg, hp']
  have chipset : ∀ p' : Player,
      p'.stack + p'.totalCommitted = actor.stack + actor.totalCommitted →
      chipSum (s.players.set seat p') = chipSum s.players := by
    intro p' hp'
    refine chipSum_set_cancel _ _ _ (fun hh => ?_)
    have hg : s.players.get ⟨seat, hh⟩ = actor := hgeteq
    rw [hg, hp']
  constructor
  · intro hrej
    rcases hrej with hA | hB
    · rw [if_pos hA]
      exact ⟨_, rfl⟩
    · by_cases hA : clampToNat bt 0 1000000000 ≤ s.currentBet ∧
          clampToNat (Int.ofNat (clampToNat bt 0 1000000000)) 0
            (actor.streetBet + actor.stack) ≤ s.currentBet
      · rw [if_pos hA]
        exact ⟨_, rfl⟩
      · rw [if_neg hA, if_pos hB]
        exact ⟨_, rfl⟩
  · intro hnrej
    have hnA : ¬ (clampToNat bt 0 1000000000 ≤ s.currentBet ∧
        clampToNat (Int.ofNat (clampToNat bt 0 1000000000)) 0
          (actor.streetBet + actor.stack) ≤ s.currentBet) :=
      fun hA => hnrej (Or.inl hA)
    have hnB : ¬ clampToNat (Int.ofNat (clampToNat bt 0 1000000000)) 0
        (actor.streetBet + actor.stack) ≤ actor.streetBet :=
      fun hB => hnrej (Or.inr hB)
    rw [if_neg hnA, if_neg hnB]
    exact (finishPlayerAction_frame s seat
      (s.players.set seat
        { payPlayer actor
            (clampToNat (Int.ofNat (clampToNat bt 0 1000000000)) 0
              (actor.streetBet + actor.stack) - actor.streetBet) with acted := true })
      (if s.currentBet <
          ({ payPlayer actor
              (clampToNat (Int.ofNat (clampToNat bt 0 1000000000)) 0
                (actor.streetBet + actor.stack) - actor.streetBet) with
              acted := true } : Player).streetBet
       then ({ payPlayer actor
              (clampToNat (Int.ofNat (clampToNat bt 0 1000000000)) 0
                (actor.streetBet + actor.stack) - actor.streetBet) with
              acted := true } : Player).streetBet
       else s.currentBet)
      (decide (s.currentBet <
          ({ payPlayer actor
              (clampToNat (Int.ofNat (clampToNat bt 0 1000000000)) 0
                (actor.streetBet + actor.stack) - actor.streetBet) with
              acted := true } : Player).streetBet))
      (keyset _ rfl) (chipset _ (payPlayer_chips actor _))).2.2.2

/-- Witness for C6: the small blind, facing a current bet of 2, requests
`BET_TO 2`; the request is rejected with the state otherwise unchanged. -/
theorem C6_amended_betTo_validation_witness :
    (betToRejected (reducer createInitialState Action.START_HAND)
        { seat := 1, name := "玩家2", stack := 199, streetBet := 1, totalCommitted := 1,
          status := PlayerStatus.active, acted := false, holeCardsText := "" } 2 →
      ∃ e, applyPlayerAction (reducer createInitialState Action.START_HAND) 1
          (PlayerAction.betTo 2) =
        { reducer createInitialState Action.START_HAND with lastError := some e }) ∧
    (¬ betToRejected (reducer createInitialState Action.START_HAND)
        { seat := 1, name := "玩家2", stack := 199, streetBet := 1, totalCommitted := 1,
          status := PlayerStatus.active, acted := false, holeCardsText := "" } 2 →
      (applyPlayerAction (reducer createInitialState Action.START_HAND) 1
          (PlayerAction.betTo 2)).lastError = none) :=
  C6_amended_betTo_validation (reducer createInitialState Action.START_HAND) 1
    { seat := 1, name := "玩家2", stack := 199, streetBet := 1, totalCommitted := 1,
      status := PlayerStatus.active, acted := false, holeCardsText := "" } 2
    (by decide) (by decide) (by decide) (by decide) (by decide)

/-- C7, counterexample: after `START_HAND` from the initial state (blinds
1/2, ante 0, two stacks of 200, dealer seat 0) the dealer's stack is 198,
not the 199 the claim asserts — the engine gives the small blind to the
seat after the dealer and the big blind to the dealer in heads-up play. -/
theorem C7_counterexample :
    ¬ (((reducer createInitialState Action.START_HAND).players.get?
          (reducer createInitialState Action.START_HAND).dealerSeat).map
            (fun p => p.stack) = some 199) := by
  decide

/-- C7, amended: after `START_HAND` from the initial state the non-dealer
seat posts the small blind (stack 199), the dealer posts the big blind
(stack 198), `currentBet` is 2, and the action is on the small-blind
(non-dealer) seat. -/
theorem C7_amended_heads_up_blinds :
    (reducer createInitialState Action.START_HAND).players.map (fun p => p.stack) = [198, 199] ∧
    (reducer createInitialState Action.START_HAND).currentBet = 2 ∧
    (reducer createInitialState Action.START_HAND).actionSeat = 1 ∧
    (reducer createInitialState Action.START_HAND).dealerSeat = 0 ∧
    (reducer createInitialState Action.START_HAND).phase = Phase.hand := by
  decide

/-- The three-way all-in scenario of C8: players committed 50, 100 and
200, all all-in. -/
def allInTriple : List Player :=
  [ { seat := 0, name := "玩家1", stack := 0, streetBet := 0, totalCommitted := 50,
      status := .allin, acted := true, holeCardsText := "" },
    { seat := 1, name := "玩家2", stack := 0, streetBet := 0, totalCommitted := 100,
      status := .allin, acted := true, holeCardsText := "" },
    { seat := 2, name := "玩家3", stack := 0, streetBet := 0, totalCommitted := 200,
      status := .allin, acted := true, holeCardsText := "" } ]

/-- C8, counterexample: on commitments 50/100/200 the third pot's amount
is `(200 - 100) * 1 = 100`, not the 50 the claim asserts. -/
theorem C8_counterexample :
    ¬ ((computeSidePots allInTriple).map (fun pot => pot.amount) = [150, 100, 50]) := by
  decide

/-- C8, amended: on commitments 50/100/200 (all all-in) `computeSidePots`
returns exactly three pots of amounts 150 (all three seats eligible), 100
(two seats eligible) and 100 (one seat eligible), in that order. -/
theorem C8_amended_all_in_side_pots :
    computeSidePots allInTriple =
      [⟨150, [0, 1, 2]⟩, ⟨100, [1, 2]⟩, ⟨100, [2]⟩] := by
  decide

/-- C9: the reducer's output never depends on the input `lastError` (it
clears it before dispatching), and in particular a `ROLLBACK` on an empty
rollback stack returns the input state with `lastError` cleared rather
than unchanged. -/
theorem C9_lastError_independence :
    (∀ (s : GameState) (a : Action), reducer s a = reducer { s with lastError := none } a) ∧
    (∀ s : GameState, s.rollbackStack = [] →
      reducer s Action.ROLLBACK = { s with lastError := none }) := by
  constructor
  · intro s a
    rfl
  · intro s h
    show rollbackOnce { s with lastError := none } = { s with lastError := none }
    unfold rollbackOnce
    simp [h]

/-- Witness for C9 at a concrete state carrying a stale error. -/
theorem C9_lastError_independence_witness :
    (reducer { createInitialState with lastError := some "stale" } Action.ROLLBACK =
      reducer { { createInitialState with lastError := some "stale" } with lastError := none }
        Action.ROLLBACK) ∧
    (reducer { createInitialState with lastError := some "stale" } Action.ROLLBACK =
      { { createInitialState with lastError := some "stale" } with lastError := none }) :=
  ⟨C9_lastError_independence.1 { createInitialState with lastError := some "stale" } Action.ROLLBACK,
   C9_lastError_independence.2 { createInitialState with lastError := some "stale" } rfl⟩

/-- C10: `parseCardsText` on an input consisting only of spaces, tabs,
newlines, carriage returns, commas and full-width commas returns an empty
card list and no error. -/
theorem C10_empty_input_not_error (input : List Char)
    (h : ∀ ch ∈ input, ch ∈ [' ', '\t', '\n', '\r', ',', '，']) :
    parseCardsText input = ([], none) := by
  unfold parseCardsText
  have hall : ∀ ch ∈ input.map (fun ch =>
      if ch = ',' ∨ ch = '，' ∨ ch = '\n' ∨ ch = '\t' then ' ' else ch),
      isJsWhitespace ch = true := by
    intro ch hch
    rcases List.mem_map.mp hch with ⟨c0, hc0, rfl⟩
    have hmem := h c0 hc0
    simp only [List.mem_cons, List.not_mem_nil, or_false] at hmem
    rcases hmem with rfl | rfl | rfl | rfl | rfl | rfl <;> decide
  rw [trimChars_eq_nil _ hall]
  rfl

/-- Witness for C10 on a concrete all-separator input. -/
theorem C10_empty_input_not_error_witness :
    (∀ ch ∈ (" ,\t\n，\r".toList), ch ∈ [' ', '\t', '\n', '\r', ',', '，']) ∧
    parseCardsText (" ,\t\n，\r".toList) = ([], none) :=
  ⟨by decide, C10_empty_input_not_error (" ,\t\n，\r".toList) (by decide)⟩

end Allin
